import Mathlib

/-!
Verification development for the nav2 costmap obstacle layer
(src/nav2_costmap_2d/plugins/obstacle_layer.cpp).

World coordinates (C++ doubles) are modelled as rationals.  The layer's
costmap is modelled as a total function from grid cells (column, row) to
cost values; the source stores cells in a flat array with
index = row * size_x + column, a bijection between in-grid cells and
indices, so keying by the cell pair is equivalent for every claim below.
Helpers of the wider costmap library that are not part of the repository
snapshot (Costmap2D::worldToMap, cellDistance, raytraceLine, Layer::touch,
CostmapLayer::updateWithMax / updateWithOverwrite, useExtraBounds) are
modelled from the specification and marked as such in their doc comments.
-/

namespace Nav2

/-- Cost value for free space (nav2_costmap_2d::FREE_SPACE). -/
def FREE_SPACE : ℕ := 0

/-- Cost value for a lethal obstacle (nav2_costmap_2d::LETHAL_OBSTACLE). -/
def LETHAL_OBSTACLE : ℕ := 254

/-- Cost value for unknown space (nav2_costmap_2d::NO_INFORMATION). -/
def NO_INFORMATION : ℕ := 255

/-- A 3-D world point, from the observation's point cloud. -/
structure Point3 where
  x : ℚ
  y : ℚ
  z : ℚ
  deriving DecidableEq

/-- An observation: sensor origin, hit points, and the per-source ranges
(Observation from nav2_costmap_2d). -/
structure Observation where
  origin : Point3
  cloud : List Point3
  obstacle_range : ℚ
  raytrace_range : ℚ
  deriving DecidableEq

/-- Static geometry of the layer's grid: extents in cells, resolution in
meters per cell, and the world coordinates of the grid origin. -/
structure GridInfo where
  size_x : ℕ
  size_y : ℕ
  resolution : ℚ
  origin_x : ℚ
  origin_y : ℚ
  deriving DecidableEq

/-- World x-coordinate of the right map edge
(map_end_x = origin_x + size_x * resolution in raytraceFreespace). -/
def mapEndX (g : GridInfo) : ℚ := g.origin_x + g.size_x * g.resolution

/-- World y-coordinate of the top map edge
(map_end_y = origin_y + size_y * resolution in raytraceFreespace). -/
def mapEndY (g : GridInfo) : ℚ := g.origin_y + g.size_y * g.resolution

/-- Modelled from the spec: Costmap2D::worldToMap is not part of the
repository snapshot.  The grid "support[s] world-to-cell coordinate
conversion" over "a resolution (meters/cell) and a world origin" and
conversion is rejected "outside grid extents"; cells are found by flooring
the offset from the origin in units of the resolution, so a world point
converts exactly when it lies in the half-open box
[origin_x, origin_x + size_x * resolution) x [origin_y, ...). -/
def worldToMap (g : GridInfo) (wx wy : ℚ) : Option (ℕ × ℕ) :=
  if wx < g.origin_x ∨ wy < g.origin_y then none
  else
    let mx : ℕ := (⌊(wx - g.origin_x) / g.resolution⌋).toNat
    let my : ℕ := (⌊(wy - g.origin_y) / g.resolution⌋).toNat
    if mx < g.size_x ∧ my < g.size_y then some (mx, my) else none

/-- The cycle's bounding rectangle (min_x, min_y, max_x, max_y). -/
structure Bounds where
  min_x : ℚ
  min_y : ℚ
  max_x : ℚ
  max_y : ℚ
  deriving DecidableEq

/-- Modelled from the spec: Layer::touch is not part of the repository
snapshot; it "expands the shared rectangle to include (x,y)". -/
def touch (x y : ℚ) (b : Bounds) : Bounds :=
  { min_x := min x b.min_x
    min_y := min y b.min_y
    max_x := max x b.max_x
    max_y := max y b.max_y }

/-- State threaded through one update cycle: the layer's own costmap
(keyed by cell, see the file header), the bounding rectangle being
accumulated, and the layer's current_ flag. -/
structure CycleState where
  costmap : ℤ × ℤ → ℕ
  bounds : Bounds
  current : Bool

/-- The layer configuration parameters read in onInitialize. -/
structure Config where
  enabled : Bool
  footprint_clearing_enabled : Bool
  max_obstacle_height : ℚ
  combination_method : ℤ
  rolling_window : Bool
  deriving DecidableEq

/-! ## Ray clipping (raytraceFreespace, inner loop)

The four `if` blocks of raytraceFreespace clip the ray from the sensor
origin (ox, oy) to the hit point (wx, wy) against the four map edges.
Each fired block divides by the ray component `a = wx - ox` or
`b = wy - oy`; in the C++ a zero denominator would produce a non-finite
intermediate value, which the model represents by `none`.  The clip is
faithful to the source: `a` and `b` are computed once from the original
hit point, the blocks run in source order on the updated (wx, wy), and
the two max-edge blocks clamp by the source's epsilon of .001. -/

/-- First clip block: `if (wx < origin_x)`. -/
def clampLowX (gx ox oy a b : ℚ) (w : ℚ × ℚ) : Option (ℚ × ℚ) :=
  if w.1 < gx then
    if a = 0 then none else some (gx, oy + b * ((gx - ox) / a))
  else some w

/-- Second clip block: `if (wy < origin_y)`. -/
def clampLowY (gy ox oy a b : ℚ) (w : ℚ × ℚ) : Option (ℚ × ℚ) :=
  if w.2 < gy then
    if b = 0 then none else some (ox + a * ((gy - oy) / b), gy)
  else some w

/-- Third clip block: `if (wx > map_end_x)`. -/
def clampHighX (ex ox oy a b : ℚ) (w : ℚ × ℚ) : Option (ℚ × ℚ) :=
  if w.1 > ex then
    if a = 0 then none else some (ex - 1/1000, oy + b * ((ex - ox) / a))
  else some w

/-- Fourth clip block: `if (wy > map_end_y)`. -/
def clampHighY (ey ox oy a b : ℚ) (w : ℚ × ℚ) : Option (ℚ × ℚ) :=
  if w.2 > ey then
    if b = 0 then none else some (ox + a * ((ey - oy) / b), ey - 1/1000)
  else some w

/-- The whole per-hit-point clipping of raytraceFreespace: the four blocks
in source order, `none` when a fired block would divide by zero. -/
def clipRay (gx gy ex ey ox oy wx wy : ℚ) : Option (ℚ × ℚ) :=
  let a := wx - ox
  let b := wy - oy
  (((clampLowX gx ox oy a b (wx, wy)).bind
      (clampLowY gy ox oy a b)).bind
    (clampHighX ex ox oy a b)).bind
  (clampHighY ey ox oy a b)

/-! ## Raytrace engine -/

/-- Modelled from the spec: Costmap2D::cellDistance is not part of the
repository snapshot; the "maximum traversal length in cells" is computed
"from the observation's raytrace_range (range / resolution, rounded)". -/
def cellDistance (range res : ℚ) : ℕ := (round (range / res)).toNat

/-- One integer line-drawing walk along the major axis: `fuel` steps
remain, `err` is the Bresenham error accumulator, `p` the current cell
as (major, minor) coordinates. -/
def bresAux (adMajor adMinor : ℕ) (sMajor sMinor : ℤ) :
    ℕ → ℤ → ℤ × ℤ → List (ℤ × ℤ)
  | 0, _, p => [p]
  | n + 1, err, p =>
    p :: (let err' := err + adMinor
          if (adMajor : ℤ) ≤ err' then
            bresAux adMajor adMinor sMajor sMinor n (err' - adMajor)
              (p.1 + sMajor, p.2 + sMinor)
          else
            bresAux adMajor adMinor sMajor sMinor n err' (p.1 + sMajor, p.2))

/-- Modelled from the spec: Costmap2D::raytraceLine / bresenham2D are not
part of the repository snapshot; the line from (x0,y0) to (x1,y1) is
rasterized with "an integer incremental line-drawing algorithm (equivalent
to Bresenham), visiting each cell along the path up to the computed
maximum cell count".  The walk steps once per major-axis cell, so at most
`cap` steps past the origin cell are taken. -/
def raytraceCells (x0 y0 x1 y1 : ℕ) (cap : ℕ) : List (ℤ × ℤ) :=
  let dx : ℤ := (x1 : ℤ) - (x0 : ℤ)
  let dy : ℤ := (y1 : ℤ) - (y0 : ℤ)
  let sx : ℤ := if dx < 0 then -1 else 1
  let sy : ℤ := if dy < 0 then -1 else 1
  if dy.natAbs ≤ dx.natAbs then
    bresAux dx.natAbs dy.natAbs sx sy (min cap dx.natAbs)
      (dx.natAbs / 2) ((x0 : ℤ), (y0 : ℤ))
  else
    (bresAux dy.natAbs dx.natAbs sy sx (min cap dy.natAbs)
      (dy.natAbs / 2) ((y0 : ℤ), (x0 : ℤ))).map Prod.swap

/-- ObstacleLayer::updateRaytraceBounds (source lines 609-619).  The C++
computes full_distance = hypot(dx, dy); the real square root is not
rational, so the model takes the distance function `dist` as a parameter
and the theorems constrain it to behave as hypot on the inputs they use
(Rat division by zero is zero, so a zero `dist` result leaves the touched
point at the origin, as dx = dy = 0 forces in the C++ as well). -/
def updateRaytraceBounds (dist : ℚ → ℚ → ℚ) (ox oy wx wy range : ℚ)
    (b : Bounds) : Bounds :=
  let dx := wx - ox
  let dy := wy - oy
  let full_distance := dist dx dy
  let scale := min 1 (range / full_distance)
  touch (ox + dx * scale) (oy + dy * scale) b

/-- Body of the per-hit-point loop of raytraceFreespace (source lines
532-580): clip the ray, convert the clipped endpoint (skipping the ray
when conversion fails), rasterize the line marking FREE_SPACE up to
cellDistance(raytrace_range) cells, and update the raytrace bounds from
the clipped endpoint. -/
def rayStep (dist : ℚ → ℚ → ℚ) (g : GridInfo) (ox oy : ℚ) (x0 y0 : ℕ)
    (range : ℚ) (st : CycleState) (p : Point3) : CycleState :=
  match clipRay g.origin_x g.origin_y (mapEndX g) (mapEndY g) ox oy p.x p.y with
  | none => st
  | some w =>
    match worldToMap g w.1 w.2 with
    | none => st
    | some c =>
      let cap := cellDistance range g.resolution
      let cells := raytraceCells x0 y0 c.1 c.2 cap
      { st with
        costmap := cells.foldl
          (fun m cell => Function.update m cell FREE_SPACE) st.costmap
        bounds := updateRaytraceBounds dist ox oy w.1 w.2 range st.bounds }

/-- ObstacleLayer::raytraceFreespace (source lines 499-581): convert the
sensor origin (abandoning the whole observation when it is off the map),
touch the origin, then run rayStep for every hit point of the cloud. -/
def raytraceFreespace (dist : ℚ → ℚ → ℚ) (g : GridInfo) (obs : Observation)
    (st : CycleState) : CycleState :=
  match worldToMap g obs.origin.x obs.origin.y with
  | none => st
  | some c0 =>
    let st := { st with bounds := touch obs.origin.x obs.origin.y st.bounds }
    obs.cloud.foldl
      (fun s p => rayStep dist g obs.origin.x obs.origin.y c0.1 c0.2
        obs.raytrace_range s p) st

/-! ## Marking engine -/

/-- Squared 3-D Euclidean distance from hit point to observation origin
(sq_dist in updateBounds, source lines 375-378). -/
def sqDist3 (p o : Point3) : ℚ :=
  (p.x - o.x) * (p.x - o.x) + (p.y - o.y) * (p.y - o.y) +
    (p.z - o.z) * (p.z - o.z)

/-- Body of the per-point marking loop of updateBounds (source lines
365-396): reject points that are too high, too far (squared distance
at least obstacle_range squared) or off the grid; otherwise set the cell
to LETHAL_OBSTACLE and touch the point. -/
def markPoint (g : GridInfo) (maxH sqRange : ℚ) (origin : Point3)
    (p : Point3) (st : CycleState) : CycleState :=
  if p.z > maxH then st
  else if sqDist3 p origin ≥ sqRange then st
  else
    match worldToMap g p.x p.y with
    | none => st
    | some c =>
      { st with
        costmap := Function.update st.costmap ((c.1 : ℤ), (c.2 : ℤ))
          LETHAL_OBSTACLE
        bounds := touch p.x p.y st.bounds }

/-- One marking observation: sq_obstacle_range is squared once per
observation (source line 359) and every cloud point is processed. -/
def markObservation (g : GridInfo) (maxH : ℚ) (obs : Observation)
    (st : CycleState) : CycleState :=
  obs.cloud.foldl
    (fun s p =>
      markPoint g maxH (obs.obstacle_range * obs.obstacle_range) obs.origin p s)
    st

/-! ## Observation collection and the update cycle -/

/-- Shared body of getMarkingObservations / getClearingObservations
(source lines 467-497): each buffer appends its snapshot and ANDs its
currentness into the running flag (initially true), then the static
observations are appended. -/
def collectObservations (bufs : List (List Observation × Bool))
    (staticObs : List Observation) : List Observation × Bool :=
  let r := bufs.foldl (fun acc bf => (acc.1 ++ bf.1, bf.2 && acc.2))
    (([] : List Observation), true)
  (r.1 ++ staticObs, r.2)

/-- ObstacleLayer::getMarkingObservations (source lines 467-481). -/
def getMarkingObservations (bufs : List (List Observation × Bool))
    (staticMarking : List Observation) : List Observation × Bool :=
  collectObservations bufs staticMarking

/-- ObstacleLayer::getClearingObservations (source lines 483-497). -/
def getClearingObservations (bufs : List (List Observation × Bool))
    (staticClearing : List Observation) : List Observation × Bool :=
  collectObservations bufs staticClearing

/-- Modelled from the spec: CostmapLayer::useExtraBounds is not part of
the repository snapshot; the tracker is "called once per
externally-supplied seed bound (pre-existing dirty region from other
layers)", merging each seed point into the rectangle. -/
def useExtraBounds (seeds : List (ℚ × ℚ)) (st : CycleState) : CycleState :=
  { st with bounds := seeds.foldl (fun b v => touch v.1 v.2 b) st.bounds }

/-- ObstacleLayer::updateFootprint (source lines 402-415): when footprint
clearing is enabled, touch every vertex of the already-transformed
footprint polygon (the pose transform itself is trigonometric and is done
by the excluded collaborator, so the transformed vertices are an input). -/
def updateFootprint (cfg : Config) (fp : List (ℚ × ℚ)) (st : CycleState) :
    CycleState :=
  if cfg.footprint_clearing_enabled then
    { st with bounds := fp.foldl (fun b v => touch v.1 v.2 b) st.bounds }
  else st

/-- The clear-then-mark body of updateBounds: all clearing observations
are raytraced (source line 347) before any marking observation is
processed (source line 352). -/
def clearAndMark (dist : ℚ → ℚ → ℚ) (g : GridInfo) (maxH : ℚ)
    (cobs mobs : List Observation) (st : CycleState) : CycleState :=
  let st := cobs.foldl (fun s o => raytraceFreespace dist g o s) st
  mobs.foldl (fun s o => markObservation g maxH o s) st

/-- ObstacleLayer::updateBounds (source lines 321-400).  The rolling
origin shift (Costmap2D::updateOrigin, not part of the repository
snapshot) is kept abstract as the `shift` parameter; it runs before the
enabled check.  When enabled: merge the extra bounds, snapshot the
marking and clearing observations, store the aggregate currentness,
raytrace, mark, and process the footprint. -/
def updateBounds (dist : ℚ → ℚ → ℚ) (g : GridInfo) (cfg : Config)
    (shift : (ℤ × ℤ → ℕ) → ℤ × ℤ → ℕ)
    (mbufs cbufs : List (List Observation × Bool))
    (smark sclear : List Observation)
    (seeds : List (ℚ × ℚ)) (fp : List (ℚ × ℚ))
    (st : CycleState) : CycleState :=
  let st0 := if cfg.rolling_window then { st with costmap := shift st.costmap }
    else st
  if cfg.enabled = false then st0
  else
    let st1 := useExtraBounds seeds st0
    let mo := getMarkingObservations mbufs smark
    let co := getClearingObservations cbufs sclear
    let st2 := { st1 with current := mo.2 && co.2 }
    updateFootprint cfg fp
      (clearAndMark dist g cfg.max_obstacle_height co.1 mo.1 st2)

/-! ## Combination engine (updateCosts) -/

/-- Modelled from the spec: the cost ordering of the Maximum policy,
"NO_INFORMATION sorts below FREE which sorts below numeric cost which
sorts below LETHAL (i.e., ordinal comparison on the cost scale, with
unknown treated as lowest)". -/
def costRank (c : ℕ) : ℕ := if c = NO_INFORMATION then 0 else c + 1

/-- Modelled from the spec: CostmapLayer::updateWithMax is not part of
the repository snapshot; "master cell <- max(master cell, local cell)"
under the `costRank` order. -/
def maxCombined (m l : ℕ) : ℕ := if costRank m < costRank l then l else m

/-- The combination switch of updateCosts (source lines 431-440),
restricted to the cycle's cell rectangle [min_i, max_i) x [min_j, max_j):
method 0 overwrites, method 1 takes the ordinal maximum, and any other
method leaves the master grid untouched.  updateWithOverwrite /
updateWithMax themselves are modelled from the spec (not in the
repository snapshot). -/
def combineStep (method : ℤ) (localG master : ℤ × ℤ → ℕ)
    (min_i min_j max_i max_j : ℤ) : ℤ × ℤ → ℕ :=
  fun c =>
    if min_i ≤ c.1 ∧ c.1 < max_i ∧ min_j ≤ c.2 ∧ c.2 < max_j then
      if method = 0 then localG c
      else if method = 1 then maxCombined (master c) (localG c)
      else master c
    else master c

/-- ObstacleLayer::updateCosts (source lines 417-441): return untouched
when disabled; otherwise clear the footprint polygon on the local costmap
(setConvexPolygonCost is polygon rasterization outside the snapshot,
abstracted as `polyFn`) and run the combination switch. -/
def updateCosts (cfg : Config) (polyFn : (ℤ × ℤ → ℕ) → ℤ × ℤ → ℕ)
    (localG master : ℤ × ℤ → ℕ) (min_i min_j max_i max_j : ℤ) :
    ℤ × ℤ → ℕ :=
  if cfg.enabled = false then master
  else
    let localG' := if cfg.footprint_clearing_enabled then polyFn localG
      else localG
    combineStep cfg.combination_method localG' master min_i min_j max_i max_j

/-- Written from the spec's words, for the refinement comparison of claim
C2: the bounds-update endpoint the spec demands, scaled from the original
(unclipped) hit point with `d` standing for the true Euclidean distance
from the origin to that hit point. -/
def specRaytraceTouchPoint (d ox oy px py range : ℚ) : ℚ × ℚ :=
  let scale := min 1 (range / d)
  (ox + (px - ox) * scale, oy + (py - oy) * scale)

/-! ## Concrete fixtures used by witnesses -/

/-- A 10 x 10 grid with resolution 1 and origin (0,0), the worked example
of the spec (section 8). -/
def grid10 : GridInfo := ⟨10, 10, 1, 0, 0⟩

/-- A concrete stand-in for hypot, exact on axis-aligned inputs. -/
def distAxis : ℚ → ℚ → ℚ := fun dx dy => if dy = 0 then |dx| else 0

/-- A concrete start state: all cells lethal, a degenerate rectangle at
the sensor position (5,5), current. -/
def stateAt5 : CycleState := ⟨fun _ => LETHAL_OBSTACLE, ⟨5, 5, 5, 5⟩, true⟩

/-- Invariant after the first clip block. -/
def InvA (gx ox oy a b : ℚ) (w : ℚ × ℚ) : Prop :=
  gx ≤ w.1 ∧ ∃ t, 0 ≤ t ∧ t ≤ 1 ∧ w.1 = ox + a * t ∧ w.2 = oy + b * t

/-- Invariant after the second clip block. -/
def InvB (gx gy ox oy a b : ℚ) (w : ℚ × ℚ) : Prop :=
  gx ≤ w.1 ∧ gy ≤ w.2 ∧ ∃ t, 0 ≤ t ∧ t ≤ 1 ∧ w.1 = ox + a * t ∧ w.2 = oy + b * t

/-- Invariant after the third clip block (the x-coordinate may have been
pulled in by the epsilon, so it is only bounded by the ray point). -/
def InvC (gx gy ex ox oy a b : ℚ) (w : ℚ × ℚ) : Prop :=
  gx ≤ w.1 ∧ w.1 ≤ ex ∧ gy ≤ w.2 ∧
    ∃ t, 0 ≤ t ∧ t ≤ 1 ∧ w.2 = oy + b * t ∧ w.1 ≤ ox + a * t ∧ ox + a * t ≤ ex

/-- The rectangle `b2` contains the rectangle `b1`. -/
def boundsLE (b1 b2 : Bounds) : Prop :=
  b2.min_x ≤ b1.min_x ∧ b2.min_y ≤ b1.min_y ∧
    b1.max_x ≤ b2.max_x ∧ b1.max_y ≤ b2.max_y

/-- The state relation "the bounds only grew". -/
def stGrew (s s' : CycleState) : Prop := boundsLE s.bounds s'.bounds

/-- "Same grid and bounds": the two states may differ only in the
current_ flag. -/
def sameGrid (s s' : CycleState) : Prop :=
  s.costmap = s'.costmap ∧ s.bounds = s'.bounds

/-! ## Helper lemmas: world-to-map conversion -/

lemma worldToMap_some_box (g : GridInfo) (hres : 0 < g.resolution)
    {wx wy : ℚ} {c : ℕ × ℕ} (h : worldToMap g wx wy = some c) :
    g.origin_x ≤ wx ∧ wx < mapEndX g ∧ g.origin_y ≤ wy ∧ wy < mapEndY g := by
  unfold worldToMap at h
  by_cases hlow : wx < g.origin_x ∨ wy < g.origin_y
  · simp [hlow] at h
  · push_neg at hlow
    obtain ⟨hx, hy⟩ := hlow
    rw [if_neg (by push_neg; exact ⟨hx, hy⟩)] at h
    by_cases hin : (⌊(wx - g.origin_x) / g.resolution⌋).toNat < g.size_x ∧
        (⌊(wy - g.origin_y) / g.resolution⌋).toNat < g.size_y
    · have hxq : (wx - g.origin_x) / g.resolution < g.size_x := by
        have h1 : ⌊(wx - g.origin_x) / g.resolution⌋ < (g.size_x : ℤ) := by
          omega
        have h2 := Int.floor_lt.mp h1
        simpa using h2
      have hyq : (wy - g.origin_y) / g.resolution < g.size_y := by
        have h1 : ⌊(wy - g.origin_y) / g.resolution⌋ < (g.size_y : ℤ) := by
          omega
        have h2 := Int.floor_lt.mp h1
        simpa using h2
      have hx2 : wx - g.origin_x < g.size_x * g.resolution := by
        calc wx - g.origin_x = (wx - g.origin_x) / g.resolution * g.resolution := by
              field_simp
          _ < g.size_x * g.resolution := by
              exact mul_lt_mul_of_pos_right hxq hres
      have hy2 : wy - g.origin_y < g.size_y * g.resolution := by
        calc wy - g.origin_y = (wy - g.origin_y) / g.resolution * g.resolution := by
              field_simp
          _ < g.size_y * g.resolution := by
              exact mul_lt_mul_of_pos_right hyq hres
      exact ⟨hx, by unfold mapEndX; linarith, hy, by unfold mapEndY; linarith⟩
    · rw [if_neg hin] at h
      exact absurd h (by simp)

lemma worldToMap_isSome_of_box (g : GridInfo) (hres : 0 < g.resolution)
    {wx wy : ℚ} (h1 : g.origin_x ≤ wx) (h2 : wx < mapEndX g)
    (h3 : g.origin_y ≤ wy) (h4 : wy < mapEndY g) :
    (worldToMap g wx wy).isSome = true := by
  unfold worldToMap
  rw [if_neg (by push_neg; exact ⟨h1, h3⟩)]
  have hxq : (wx - g.origin_x) / g.resolution < g.size_x := by
    rw [div_lt_iff₀ hres]
    unfold mapEndX at h2
    linarith
  have hyq : (wy - g.origin_y) / g.resolution < g.size_y := by
    rw [div_lt_iff₀ hres]
    unfold mapEndY at h4
    linarith
  have hxz : ⌊(wx - g.origin_x) / g.resolution⌋ < (g.size_x : ℤ) :=
    Int.floor_lt.mpr (by exact_mod_cast hxq)
  have hyz : ⌊(wy - g.origin_y) / g.resolution⌋ < (g.size_y : ℤ) :=
    Int.floor_lt.mpr (by exact_mod_cast hyq)
  have hxnn : 0 ≤ ⌊(wx - g.origin_x) / g.resolution⌋ :=
    Int.floor_nonneg.mpr (div_nonneg (by linarith) hres.le)
  have hynn : 0 ≤ ⌊(wy - g.origin_y) / g.resolution⌋ :=
    Int.floor_nonneg.mpr (div_nonneg (by linarith) hres.le)
  rw [if_pos ⟨by omega, by omega⟩]
  rfl

/-! ## Helper lemmas: the clipping stages of raytraceFreespace

Each stage lemma shows the stage cannot divide by zero (the result is
`some`) and maintains an invariant strong enough for the next stage: the
running endpoint is always a point `(ox + a*t, oy + b*t)` of the original
ray with parameter `t` between 0 and 1, progressively constrained to the
map box.  `gx/gy` are the map origin, `ex/ey` the map end coordinates. -/

lemma clampLowX_ok (gx ox oy wx0 wy0 : ℚ) (hgx : gx ≤ ox) :
    ∃ w, clampLowX gx ox oy (wx0 - ox) (wy0 - oy) (wx0, wy0) = some w ∧
      InvA gx ox oy (wx0 - ox) (wy0 - oy) w := by
  by_cases h1 : wx0 < gx
  · have ha : wx0 - ox < 0 := by linarith
    have ha' : wx0 - ox ≠ 0 := ne_of_lt ha
    refine ⟨(gx, oy + (wy0 - oy) * ((gx - ox) / (wx0 - ox))), ?_, ?_⟩
    · simp [clampLowX, h1, ha']
    · refine ⟨le_refl gx, (gx - ox) / (wx0 - ox), ?_, ?_, ?_, rfl⟩
      · exact div_nonneg_iff.mpr (Or.inr ⟨by linarith, ha.le⟩)
      · exact div_le_one_iff.mpr (Or.inr (Or.inr ⟨ha, by linarith⟩))
      · field_simp
  · refine ⟨(wx0, wy0), by simp [clampLowX, h1], le_of_not_lt h1, 1,
      zero_le_one, le_refl 1, by ring, by ring⟩

lemma clampLowY_ok (gx gy ox oy a b : ℚ) (hgx : gx ≤ ox) (hgy : gy ≤ oy)
    (w : ℚ × ℚ) (hw : InvA gx ox oy a b w) :
    ∃ w', clampLowY gy ox oy a b w = some w' ∧ InvB gx gy ox oy a b w' := by
  obtain ⟨h1, t, ht0, ht1, hwx, hwy⟩ := hw
  by_cases h2 : w.2 < gy
  · have hbt : b * t < gy - oy := by rw [hwy] at h2; linarith
    have hb : b < 0 := by nlinarith
    have hb' : b ≠ 0 := ne_of_lt hb
    have hkey : b * ((gy - oy) / b) = gy - oy := by field_simp
    have ht20 : 0 ≤ (gy - oy) / b :=
      div_nonneg_iff.mpr (Or.inr ⟨by linarith, hb.le⟩)
    have ht2t : (gy - oy) / b < t := by nlinarith
    refine ⟨(ox + a * ((gy - oy) / b), gy), ?_, ?_, le_refl gy,
      (gy - oy) / b, ht20, by linarith, rfl, by linarith⟩
    · simp [clampLowY, h2, hb']
    · rcases le_or_lt 0 a with haP | haN
      · nlinarith
      · have : a * t ≤ a * ((gy - oy) / b) :=
          mul_le_mul_of_nonpos_left (by linarith) haN.le
        linarith [hwx ▸ h1]
  · exact ⟨w, by simp [clampLowY, h2], h1, le_of_not_lt h2, t, ht0, ht1,
      hwx, hwy⟩

lemma clampHighX_ok (gx gy ex ox oy a b : ℚ) (hgx : gx ≤ ox) (hgy : gy ≤ oy)
    (hox : ox < ex) (hwid : gx + 1/1000 ≤ ex)
    (w : ℚ × ℚ) (hw : InvB gx gy ox oy a b w) :
    ∃ w', clampHighX ex ox oy a b w = some w' ∧ InvC gx gy ex ox oy a b w' := by
  obtain ⟨h1, h2, t, ht0, ht1, hwx, hwy⟩ := hw
  by_cases h3 : w.1 > ex
  · have hat : ex - ox < a * t := by rw [hwx] at h3; linarith
    have ha : 0 < a := by nlinarith
    have ha' : a ≠ 0 := ne_of_gt ha
    have hkey : a * ((ex - ox) / a) = ex - ox := by field_simp
    have ht30 : 0 ≤ (ex - ox) / a := div_nonneg (by linarith) ha.le
    have ht3t : (ex - ox) / a < t := by nlinarith
    refine ⟨(ex - 1/1000, oy + b * ((ex - ox) / a)), ?_, by linarith,
      by linarith, ?_, (ex - ox) / a, ht30, by linarith, rfl, by linarith,
      by linarith⟩
    · simp [clampHighX, h3, ha']
    · rcases le_or_lt 0 b with hbP | hbN
      · nlinarith
      · have : b * t ≤ b * ((ex - ox) / a) :=
          mul_le_mul_of_nonpos_left (by linarith) hbN.le
        linarith [hwy ▸ h2]
  · exact ⟨w, by simp [clampHighX, h3], h1, le_of_not_lt h3, h2, t, ht0,
      ht1, hwy, le_of_eq hwx, by rw [← hwx]; exact le_of_not_lt h3⟩

lemma clampHighY_ok (gx gy ex ey ox oy a b : ℚ) (hgx : gx ≤ ox)
    (hgy : gy ≤ oy) (hox : ox < ex) (hoy : oy < ey)
    (hhei : gy + 1/1000 ≤ ey) (w : ℚ × ℚ) (hw : InvC gx gy ex ox oy a b w) :
    ∃ w', clampHighY ey ox oy a b w = some w' ∧
      gx ≤ w'.1 ∧ w'.1 ≤ ex ∧ gy ≤ w'.2 ∧ w'.2 ≤ ey := by
  obtain ⟨h1, h2, h3, t, ht0, ht1, hwy, hwxl, hwxr⟩ := hw
  by_cases h4 : w.2 > ey
  · have hbt : ey - oy < b * t := by rw [hwy] at h4; linarith
    have hb : 0 < b := by nlinarith
    have hb' : b ≠ 0 := ne_of_gt hb
    have hkey : b * ((ey - oy) / b) = ey - oy := by field_simp
    have ht40 : 0 ≤ (ey - oy) / b := div_nonneg (by linarith) hb.le
    have ht4t : (ey - oy) / b < t := by nlinarith
    refine ⟨(ox + a * ((ey - oy) / b), ey - 1/1000), ?_, ?_, ?_,
      by linarith, by linarith⟩
    · simp [clampHighY, h4, hb']
    · rcases le_or_lt 0 a with haP | haN
      · nlinarith
      · have : a * t ≤ a * ((ey - oy) / b) :=
          mul_le_mul_of_nonpos_left (by linarith) haN.le
        linarith
    · rcases le_or_lt 0 a with haP | haN
      · have : a * ((ey - oy) / b) ≤ a * t :=
          mul_le_mul_of_nonneg_left (by linarith) haP
        linarith
      · have : a * ((ey - oy) / b) ≤ a * 0 :=
          mul_le_mul_of_nonpos_left ht40 haN.le
        nlinarith
  · exact ⟨w, by simp [clampHighY, h4], h1, h2, h3, le_of_not_lt h4⟩

/-- Composition of the four stages: for a sensor origin inside the map
box and a map at least one epsilon wide and tall, the clip never divides
by zero and lands in the closed map box. -/
lemma clipRay_some_box (gx gy ex ey ox oy wx0 wy0 : ℚ) (hgx : gx ≤ ox)
    (hox : ox < ex) (hgy : gy ≤ oy) (hoy : oy < ey)
    (hwid : gx + 1/1000 ≤ ex) (hhei : gy + 1/1000 ≤ ey) :
    ∃ w, clipRay gx gy ex ey ox oy wx0 wy0 = some w ∧
      gx ≤ w.1 ∧ w.1 ≤ ex ∧ gy ≤ w.2 ∧ w.2 ≤ ey := by
  obtain ⟨w1, e1, i1⟩ := clampLowX_ok gx ox oy wx0 wy0 hgx
  obtain ⟨w2, e2, i2⟩ := clampLowY_ok gx gy ox oy (wx0 - ox) (wy0 - oy)
    hgx hgy w1 i1
  obtain ⟨w3, e3, i3⟩ := clampHighX_ok gx gy ex ox oy (wx0 - ox) (wy0 - oy)
    hgx hgy hox hwid w2 i2
  obtain ⟨w4, e4, hbox⟩ := clampHighY_ok gx gy ex ey ox oy (wx0 - ox)
    (wy0 - oy) hgx hgy hox hoy hhei w3 i3
  refine ⟨w4, ?_, hbox⟩
  simp [clipRay, e1, e2, e3, e4]

/-! ## Claim C1 -/

/-- C1 (amended): for every clearing observation whose origin converts to
a grid cell, and every hit point, the per-axis parametric clipping never
attempts a division by a zero ray component a or b (the clip always
returns a value), and the clipped endpoint lands inside the closed map
box; world-to-cell conversion of the clipped endpoint succeeds whenever
the endpoint is strictly below the two maximum map boundaries.  (The
unamended claim — conversion always succeeds — is refuted by
c1_counterexample: a hit point lying exactly on a maximum boundary is
left unclipped and fails conversion, and the source skips that ray.)  The
1/1000 hypotheses say the map is at least one clipping epsilon wide and
tall. -/
theorem c1_clip_zero_safe_in_box (g : GridInfo) (hres : 0 < g.resolution)
    (hwid : g.origin_x + 1/1000 ≤ mapEndX g)
    (hhei : g.origin_y + 1/1000 ≤ mapEndY g)
    (ox oy : ℚ) (c0 : ℕ × ℕ) (horig : worldToMap g ox oy = some c0)
    (wx0 wy0 : ℚ) :
    ∃ w : ℚ × ℚ,
      clipRay g.origin_x g.origin_y (mapEndX g) (mapEndY g) ox oy wx0 wy0 =
        some w ∧
      g.origin_x ≤ w.1 ∧ w.1 ≤ mapEndX g ∧
      g.origin_y ≤ w.2 ∧ w.2 ≤ mapEndY g ∧
      (w.1 < mapEndX g → w.2 < mapEndY g →
        (worldToMap g w.1 w.2).isSome = true) := by
  obtain ⟨h1, h2, h3, h4⟩ := worldToMap_some_box g hres horig
  obtain ⟨w, he, b1, b2, b3, b4⟩ :=
    clipRay_some_box g.origin_x g.origin_y (mapEndX g) (mapEndY g) ox oy
      wx0 wy0 h1 h2 h3 h4 hwid hhei
  exact ⟨w, he, b1, b2, b3, b4,
    fun hx hy => worldToMap_isSome_of_box g hres b1 hx b3 hy⟩

/-- Witness for c1_clip_zero_safe_in_box at the spec's worked grid, a
sensor at (5,5) and an axis-parallel hit point (5,12), whose ray has
a = 0 exactly. -/
theorem c1_witness :
    ((0 : ℚ) < grid10.resolution ∧
      grid10.origin_x + 1/1000 ≤ mapEndX grid10 ∧
      grid10.origin_y + 1/1000 ≤ mapEndY grid10 ∧
      worldToMap grid10 5 5 = some (5, 5)) ∧
    (∃ w : ℚ × ℚ,
      clipRay grid10.origin_x grid10.origin_y (mapEndX grid10)
        (mapEndY grid10) 5 5 5 12 = some w ∧
      grid10.origin_x ≤ w.1 ∧ w.1 ≤ mapEndX grid10 ∧
      grid10.origin_y ≤ w.2 ∧ w.2 ≤ mapEndY grid10 ∧
      (w.1 < mapEndX grid10 → w.2 < mapEndY grid10 →
        (worldToMap grid10 w.1 w.2).isSome = true)) :=
  ⟨⟨by norm_num [grid10],
    by norm_num [grid10, mapEndX],
    by norm_num [grid10, mapEndY],
    by norm_num [worldToMap, grid10]; rfl⟩,
   c1_clip_zero_safe_in_box grid10 (by norm_num [grid10])
     (by norm_num [grid10, mapEndX]) (by norm_num [grid10, mapEndY])
     5 5 (5, 5) (by norm_num [worldToMap, grid10]; rfl) 5 12⟩

/-- Counterexample to C1 as stated: on the spec's worked grid with the
sensor origin at (5,5) (which converts), the hit point (10,5) lies
exactly on the maximum x boundary, no clip block fires, and the clipped
endpoint fails world-to-cell conversion, so the ray is skipped by the
legality check before rasterization. -/
theorem c1_counterexample :
    worldToMap grid10 5 5 = some (5, 5) ∧
    mapEndX grid10 = 10 ∧ mapEndY grid10 = 10 ∧
    clipRay grid10.origin_x grid10.origin_y (mapEndX grid10)
      (mapEndY grid10) 5 5 10 5 = some (10, 5) ∧
    worldToMap grid10 10 5 = none := by
  refine ⟨by norm_num [worldToMap, grid10]; rfl,
    by norm_num [grid10, mapEndX], by norm_num [grid10, mapEndY], ?_, ?_⟩
  · norm_num [clipRay, clampLowX, clampLowY, clampHighX, clampHighY,
      grid10, mapEndX, mapEndY]
  · norm_num [worldToMap, grid10]

/-! ## Generic fold helpers -/

lemma foldl_invariant {α σ : Type} (f : σ → α → σ) (Q : σ → Prop)
    (hstep : ∀ s a, Q s → Q (f s a)) :
    ∀ (l : List α) (s : σ), Q s → Q (l.foldl f s) := by
  intro l
  induction l with
  | nil => exact fun s hs => hs
  | cons a l ih => exact fun s hs => ih (f s a) (hstep s a hs)

lemma foldl_establish {α σ : Type} (f : σ → α → σ) (Q : σ → Prop)
    (hstep : ∀ s a, Q s → Q (f s a)) (a : α) (hset : ∀ s, Q (f s a)) :
    ∀ (l : List α) (s : σ), a ∈ l → Q (l.foldl f s) := by
  intro l
  induction l with
  | nil => intro s h; cases h
  | cons b l ih =>
    intro s hmem
    rcases List.mem_cons.mp hmem with h | h
    · subst h
      exact foldl_invariant f Q hstep l (f s a) (hset s)
    · exact ih (f s b) h

lemma foldl_rel {α σ : Type} (R : σ → σ → Prop) (f : σ → α → σ)
    (htrans : ∀ x y z, R x y → R y z → R x z)
    (hrefl : ∀ s, R s s)
    (hstep : ∀ s a, R s (f s a)) :
    ∀ (l : List α) (s : σ), R s (l.foldl f s) := by
  intro l
  induction l with
  | nil => exact fun s => hrefl s
  | cons a l ih =>
    exact fun s => htrans s (f s a) (l.foldl f (f s a)) (hstep s a) (ih (f s a))

lemma foldl_congr_rel {α σ : Type} (R : σ → σ → Prop) (f : σ → α → σ)
    (hstep : ∀ s s' a, R s s' → R (f s a) (f s' a)) :
    ∀ (l : List α) (s s' : σ), R s s' → R (l.foldl f s) (l.foldl f s') := by
  intro l
  induction l with
  | nil => exact fun s s' h => h
  | cons a l ih => exact fun s s' h => ih (f s a) (f s' a) (hstep s s' a h)

lemma foldl_update_of_not_mem {κ : Type} [DecidableEq κ] (v : ℕ) :
    ∀ (cells : List κ) (m : κ → ℕ) (c : κ), c ∉ cells →
      (cells.foldl (fun m0 cell => Function.update m0 cell v) m) c = m c := by
  intro cells
  induction cells with
  | nil => intro m c _; rfl
  | cons d rest ih =>
    intro m c h
    rw [List.foldl_cons, ih (Function.update m d v) c
      (fun hr => h (List.mem_cons_of_mem d hr))]
    have hne : c ≠ d := fun he => h (by rw [he]; exact List.mem_cons_self d rest)
    exact Function.update_noteq hne v m

lemma foldl_update_of_mem {κ : Type} [DecidableEq κ] (v : ℕ) :
    ∀ (cells : List κ) (m : κ → ℕ) (c : κ), c ∈ cells →
      (cells.foldl (fun m0 cell => Function.update m0 cell v) m) c = v := by
  intro cells
  induction cells with
  | nil => intro m c h; cases h
  | cons d rest ih =>
    intro m c h
    rw [List.foldl_cons]
    by_cases h2 : c ∈ rest
    · exact ih _ c h2
    · rcases List.mem_cons.mp h with h1 | h1
      · subst h1
        rw [foldl_update_of_not_mem v rest _ c h2]
        exact Function.update_same c v m
      · exact absurd h1 h2

/-! ## Claim C4 -/

/-- C4: for every marking observation and hit point p, the cell under p
is set to LETHAL_OBSTACLE and p's world coordinates are included in the
bounding rectangle when p.z ≤ max_obstacle_height, the squared 3-D
distance to the observation origin is strictly below obstacle_range
squared, and (p.x, p.y) converts to a grid cell; and for every point
rejected by any of the three tests the whole state — in particular the
grid at every cell — is unchanged. -/
theorem c4_mark_point_iff (g : GridInfo) (maxH : ℚ) (obs : Observation)
    (p : Point3) (st : CycleState) :
    (∀ c : ℕ × ℕ, p.z ≤ maxH →
      sqDist3 p obs.origin < obs.obstacle_range * obs.obstacle_range →
      worldToMap g p.x p.y = some c →
      (markPoint g maxH (obs.obstacle_range * obs.obstacle_range)
          obs.origin p st).costmap ((c.1 : ℤ), (c.2 : ℤ)) = LETHAL_OBSTACLE ∧
      (markPoint g maxH (obs.obstacle_range * obs.obstacle_range)
          obs.origin p st).bounds.min_x ≤ p.x ∧
      p.x ≤ (markPoint g maxH (obs.obstacle_range * obs.obstacle_range)
          obs.origin p st).bounds.max_x ∧
      (markPoint g maxH (obs.obstacle_range * obs.obstacle_range)
          obs.origin p st).bounds.min_y ≤ p.y ∧
      p.y ≤ (markPoint g maxH (obs.obstacle_range * obs.obstacle_range)
          obs.origin p st).bounds.max_y) ∧
    ((p.z > maxH ∨
        sqDist3 p obs.origin ≥ obs.obstacle_range * obs.obstacle_range ∨
        worldToMap g p.x p.y = none) →
      markPoint g maxH (obs.obstacle_range * obs.obstacle_range)
        obs.origin p st = st) := by
  constructor
  · intro c hz hd hc
    have hz' : ¬(p.z > maxH) := not_lt.mpr hz
    have hd' : ¬(sqDist3 p obs.origin ≥
        obs.obstacle_range * obs.obstacle_range) := not_le.mpr hd
    simp only [markPoint, if_neg hz', if_neg hd', hc]
    refine ⟨Function.update_same _ _ _, ?_, ?_, ?_, ?_⟩
    · exact min_le_left p.x st.bounds.min_x
    · exact le_max_left p.x st.bounds.max_x
    · exact min_le_left p.y st.bounds.min_y
    · exact le_max_left p.y st.bounds.max_y
  · intro hrej
    unfold markPoint
    rcases hrej with h | h | h
    · rw [if_pos h]
    · by_cases hz : p.z > maxH
      · rw [if_pos hz]
      · rw [if_neg hz, if_pos h]
    · by_cases hz : p.z > maxH
      · rw [if_pos hz]
      · rw [if_neg hz]
        by_cases hd : sqDist3 p obs.origin ≥
            obs.obstacle_range * obs.obstacle_range
        · rw [if_pos hd]
        · rw [if_neg hd, h]

/-- Witness for c4_mark_point_iff: the spec's worked example, a marking
point at (6,5,0) from a sensor at (5,5) with obstacle_range 2.5 is
accepted, sets cell (6,5) lethal and is included in the bounds; the
spec's rejected example, a point at height 3.0 with
max_obstacle_height 2.0, leaves the state unchanged. -/
theorem c4_witness :
    ((⟨6, 5, 0⟩ : Point3).z ≤ 2 ∧
      sqDist3 ⟨6, 5, 0⟩ ⟨5, 5, 0⟩ < 5/2 * (5/2) ∧
      worldToMap grid10 (6 : ℚ) 5 = some (6, 5) ∧
      (markPoint grid10 2 (5/2 * (5/2)) ⟨5, 5, 0⟩ ⟨6, 5, 0⟩
          stateAt5).costmap (6, 5) = LETHAL_OBSTACLE) ∧
    ((⟨5, 5, 3⟩ : Point3).z > 2 ∧
      markPoint grid10 2 (5/2 * (5/2)) ⟨5, 5, 0⟩ ⟨5, 5, 3⟩ stateAt5 =
        stateAt5) := by
  have hacc := (c4_mark_point_iff grid10 2 ⟨⟨5, 5, 0⟩, [], 5/2, 3⟩
    ⟨6, 5, 0⟩ stateAt5).1 (6, 5) (by norm_num)
    (by norm_num [sqDist3]) (by norm_num [worldToMap, grid10]; decide)
  have hrej := (c4_mark_point_iff grid10 2 ⟨⟨5, 5, 0⟩, [], 5/2, 3⟩
    ⟨5, 5, 3⟩ stateAt5).2 (Or.inl (by norm_num))
  exact ⟨⟨by norm_num, by norm_num [sqDist3],
    by norm_num [worldToMap, grid10]; decide, hacc.1⟩,
    ⟨by norm_num, hrej⟩⟩

/-! ## Claim C8 -/

lemma raytraceFreespace_skip (dist : ℚ → ℚ → ℚ) (g : GridInfo)
    (obs : Observation)
    (h : worldToMap g obs.origin.x obs.origin.y = none) (st : CycleState) :
    raytraceFreespace dist g obs st = st := by
  simp [raytraceFreespace, h]

/-- C8: a clearing observation whose sensor origin fails world-to-cell
conversion is skipped whole — the cycle state (grid and bounds) is
untouched by it and the fold over the remaining observations proceeds as
if it were absent — while a ray whose clipped endpoint fails conversion
only skips that single ray (rayStep is the identity there). -/
theorem c8_skip_conditions (dist : ℚ → ℚ → ℚ) (g : GridInfo)
    (obs : Observation) (st : CycleState) (pre post : List Observation)
    (p : Point3) (w : ℚ × ℚ) (x0 y0 : ℕ) :
    (worldToMap g obs.origin.x obs.origin.y = none →
      raytraceFreespace dist g obs st = st ∧
      (pre ++ obs :: post).foldl (fun s o => raytraceFreespace dist g o s) st
        = (pre ++ post).foldl (fun s o => raytraceFreespace dist g o s) st) ∧
    (clipRay g.origin_x g.origin_y (mapEndX g) (mapEndY g)
        obs.origin.x obs.origin.y p.x p.y = some w →
      worldToMap g w.1 w.2 = none →
      rayStep dist g obs.origin.x obs.origin.y x0 y0 obs.raytrace_range st p
        = st) := by
  constructor
  · intro h
    refine ⟨raytraceFreespace_skip dist g obs h st, ?_⟩
    rw [List.foldl_append, List.foldl_append, List.foldl_cons,
      raytraceFreespace_skip dist g obs h]
  · intro hclip hconv
    simp [rayStep, hclip, hconv]

/-- Witness for c8_skip_conditions: an observation whose origin (-1,-1)
is off the worked grid is skipped whole, and the ray to the boundary
point (10,5) from an on-grid origin is skipped alone because its clipped
endpoint fails conversion. -/
theorem c8_witness :
    (worldToMap grid10 (-1 : ℚ) (-1 : ℚ) = none ∧
      raytraceFreespace distAxis grid10 ⟨⟨-1, -1, 0⟩, [⟨3, 3, 0⟩], 5/2, 3⟩
        stateAt5 = stateAt5) ∧
    (clipRay grid10.origin_x grid10.origin_y (mapEndX grid10)
        (mapEndY grid10) 5 5 (10 : ℚ) (5 : ℚ) = some (10, 5) ∧
      worldToMap grid10 (10 : ℚ) (5 : ℚ) = none ∧
      rayStep distAxis grid10 5 5 5 5 10 stateAt5 ⟨10, 5, 0⟩ = stateAt5) := by
  have h1 : worldToMap grid10 (-1 : ℚ) (-1 : ℚ) = none := by
    norm_num [worldToMap, grid10]
  have h2 : clipRay grid10.origin_x grid10.origin_y (mapEndX grid10)
      (mapEndY grid10) 5 5 (10 : ℚ) (5 : ℚ) = some (10, 5) := by
    norm_num [clipRay, clampLowX, clampLowY, clampHighX, clampHighY,
      grid10, mapEndX, mapEndY]
  have h3 : worldToMap grid10 (10 : ℚ) (5 : ℚ) = none := by
    norm_num [worldToMap, grid10]
  refine ⟨⟨h1, ?_⟩, h2, h3, ?_⟩
  · exact ((c8_skip_conditions distAxis grid10 ⟨⟨-1, -1, 0⟩, [⟨3, 3, 0⟩],
      5/2, 3⟩ stateAt5 [] [] ⟨3, 3, 0⟩ (0, 0) 0 0).1 h1).1
  · exact (c8_skip_conditions distAxis grid10 ⟨⟨5, 5, 0⟩, [⟨10, 5, 0⟩],
      5/2, 10⟩ stateAt5 [] [] ⟨10, 5, 0⟩ (10, 5) 5 5).2 h2 h3

/-! ## Claim C10 -/

/-- C10: when the layer is disabled, updateBounds still performs the
rolling-window origin shift (when rolling) before returning, but touches
neither bounds nor currentness and performs no marking or clearing; and
updateCosts leaves the master grid entirely unchanged. -/
theorem c10_disabled_layer (dist : ℚ → ℚ → ℚ) (g : GridInfo) (cfg : Config)
    (shift : (ℤ × ℤ → ℕ) → ℤ × ℤ → ℕ)
    (mbufs cbufs : List (List Observation × Bool))
    (smark sclear : List Observation) (seeds fp : List (ℚ × ℚ))
    (st : CycleState) (polyFn : (ℤ × ℤ → ℕ) → ℤ × ℤ → ℕ)
    (localG master : ℤ × ℤ → ℕ) (min_i min_j max_i max_j : ℤ)
    (hen : cfg.enabled = false) :
    (updateBounds dist g cfg shift mbufs cbufs smark sclear seeds fp
        st).costmap =
      (if cfg.rolling_window then shift st.costmap else st.costmap) ∧
    (updateBounds dist g cfg shift mbufs cbufs smark sclear seeds fp
        st).bounds = st.bounds ∧
    (updateBounds dist g cfg shift mbufs cbufs smark sclear seeds fp
        st).current = st.current ∧
    updateCosts cfg polyFn localG master min_i min_j max_i max_j = master := by
  unfold updateBounds updateCosts
  by_cases hr : cfg.rolling_window <;> simp [hen, hr]

/-- Witness for c10_disabled_layer: a disabled rolling configuration on
the worked grid; the origin shift still reaches the costmap while bounds,
currentness and master grid are untouched. -/
theorem c10_witness :
    ((⟨false, true, 2, 1, true⟩ : Config).enabled = false) ∧
    (updateBounds distAxis grid10 ⟨false, true, 2, 1, true⟩
        (fun _ => fun _ => 7) [] [] [] [] [] [] stateAt5).costmap =
      (if (⟨false, true, 2, 1, true⟩ : Config).rolling_window then
        (fun _ => fun _ => 7) stateAt5.costmap else stateAt5.costmap) ∧
    (updateBounds distAxis grid10 ⟨false, true, 2, 1, true⟩
        (fun _ => fun _ => 7) [] [] [] [] [] [] stateAt5).bounds =
      stateAt5.bounds ∧
    (updateBounds distAxis grid10 ⟨false, true, 2, 1, true⟩
        (fun _ => fun _ => 7) [] [] [] [] [] [] stateAt5).current =
      stateAt5.current ∧
    updateCosts ⟨false, true, 2, 1, true⟩ (fun m => m) (fun _ => 0)
      (fun _ => 254) 0 0 10 10 = (fun _ => 254) := by
  have h := c10_disabled_layer distAxis grid10 ⟨false, true, 2, 1, true⟩
    (fun _ => fun _ => 7) [] [] [] [] [] [] stateAt5 (fun m => m)
    (fun _ => 0) (fun _ => 254) 0 0 10 10 rfl
  exact ⟨rfl, h.1, h.2.1, h.2.2.1, h.2.2.2⟩

/-! ## Claim C5 -/

/-- C5: within the cycle's cell rectangle, method 0 (Overwrite) makes
every master cell the local cell, method 1 (Maximum) makes it the maximum
of master and local under the cost order with NO_INFORMATION below
FREE_SPACE below numeric cost below LETHAL_OBSTACLE, and any other
method (NoOp) leaves the master untouched; outside the rectangle the
master is never written.  `L` is the local grid after the footprint
clearing step of updateCosts. -/
theorem c5_combination_policies (cfg : Config)
    (polyFn : (ℤ × ℤ → ℕ) → ℤ × ℤ → ℕ) (localG master : ℤ × ℤ → ℕ)
    (min_i min_j max_i max_j : ℤ) (c : ℤ × ℤ) (L : ℤ × ℤ → ℕ)
    (hen : cfg.enabled = true)
    (hL : L = if cfg.footprint_clearing_enabled then polyFn localG
      else localG) :
    (costRank NO_INFORMATION < costRank FREE_SPACE ∧
      costRank FREE_SPACE < costRank 1 ∧
      costRank 253 < costRank LETHAL_OBSTACLE) ∧
    (∀ x y : ℕ, (maxCombined x y = x ∨ maxCombined x y = y) ∧
      costRank x ≤ costRank (maxCombined x y) ∧
      costRank y ≤ costRank (maxCombined x y)) ∧
    ((min_i ≤ c.1 ∧ c.1 < max_i ∧ min_j ≤ c.2 ∧ c.2 < max_j) →
      (cfg.combination_method = 0 →
        updateCosts cfg polyFn localG master min_i min_j max_i max_j c =
          L c) ∧
      (cfg.combination_method = 1 →
        updateCosts cfg polyFn localG master min_i min_j max_i max_j c =
          maxCombined (master c) (L c)) ∧
      (cfg.combination_method ≠ 0 → cfg.combination_method ≠ 1 →
        updateCosts cfg polyFn localG master min_i min_j max_i max_j c =
          master c)) ∧
    (¬(min_i ≤ c.1 ∧ c.1 < max_i ∧ min_j ≤ c.2 ∧ c.2 < max_j) →
      updateCosts cfg polyFn localG master min_i min_j max_i max_j c =
        master c) := by
  have hcost : ∀ x y : ℕ, (maxCombined x y = x ∨ maxCombined x y = y) ∧
      costRank x ≤ costRank (maxCombined x y) ∧
      costRank y ≤ costRank (maxCombined x y) := by
    intro x y
    unfold maxCombined
    by_cases h : costRank x < costRank y
    · simp [h, h.le]
    · simp [h, le_of_not_lt h]
  have hupd : updateCosts cfg polyFn localG master min_i min_j max_i max_j =
      combineStep cfg.combination_method L master min_i min_j max_i max_j := by
    unfold updateCosts
    rw [if_neg (by simp [hen]), hL]
  refine ⟨by norm_num [costRank, NO_INFORMATION, FREE_SPACE, LETHAL_OBSTACLE],
    hcost, ?_, ?_⟩
  · intro hin
    refine ⟨?_, ?_, ?_⟩
    · intro h0
      rw [hupd]
      simp [combineStep, hin, h0]
    · intro h1
      rw [hupd]
      simp [combineStep, hin, h1]
    · intro h0 h1
      rw [hupd]
      simp [combineStep, hin, h0, h1]
  · intro hout
    rw [hupd]
    simp [combineStep, hout]

/-- Witness for c5_combination_policies: the Maximum method on the worked
rectangle, a local FREE cell against a NO_INFORMATION master cell. -/
theorem c5_witness :
    ((⟨true, false, 2, 1, false⟩ : Config).enabled = true) ∧
    (((0 : ℤ) ≤ (3, 4).1 ∧ ((3, 4) : ℤ × ℤ).1 < 10 ∧ (0 : ℤ) ≤ (3, 4).2 ∧
        ((3, 4) : ℤ × ℤ).2 < 10) →
      ((⟨true, false, 2, 1, false⟩ : Config).combination_method = 1 →
        updateCosts ⟨true, false, 2, 1, false⟩ (fun m => m)
            (fun _ => FREE_SPACE) (fun _ => NO_INFORMATION) 0 0 10 10
            (3, 4) =
          maxCombined ((fun _ => NO_INFORMATION) ((3, 4) : ℤ × ℤ))
            ((fun _ => FREE_SPACE) ((3, 4) : ℤ × ℤ)))) ∧
    maxCombined NO_INFORMATION FREE_SPACE = FREE_SPACE := by
  have h := c5_combination_policies ⟨true, false, 2, 1, false⟩ (fun m => m)
    (fun _ => FREE_SPACE) (fun _ => NO_INFORMATION) 0 0 10 10 (3, 4)
    (fun _ => FREE_SPACE) rfl (by simp)
  exact ⟨rfl, fun hin h1 => ((h.2.2.1 hin).2.1 h1),
    by norm_num [maxCombined, costRank, NO_INFORMATION, FREE_SPACE]⟩

/-! ## Claim C3 -/

lemma markPoint_lethal_stable (g : GridInfo) (maxH sqR : ℚ)
    (origin p : Point3) (cell : ℤ × ℤ) (st : CycleState)
    (h : st.costmap cell = LETHAL_OBSTACLE) :
    (markPoint g maxH sqR origin p st).costmap cell = LETHAL_OBSTACLE := by
  unfold markPoint
  split_ifs with h1 h2
  · exact h
  · exact h
  · rcases hw : worldToMap g p.x p.y with _ | c
    · simp [hw]
      exact h
    · simp [hw]
      by_cases hcc : cell = ((c.1 : ℤ), (c.2 : ℤ))
      · subst hcc
        exact Function.update_same _ _ _
      · rw [Function.update_noteq hcc]
        exact h

lemma markPoint_sets (g : GridInfo) (maxH sqR : ℚ) (origin p : Point3)
    (c : ℕ × ℕ) (hz : p.z ≤ maxH) (hd : sqDist3 p origin < sqR)
    (hc : worldToMap g p.x p.y = some c) (st : CycleState) :
    (markPoint g maxH sqR origin p st).costmap ((c.1 : ℤ), (c.2 : ℤ)) =
      LETHAL_OBSTACLE := by
  simp only [markPoint, if_neg (not_lt.mpr hz), if_neg (not_le.mpr hd), hc]
  exact Function.update_same _ _ _

lemma markObservation_lethal_stable (g : GridInfo) (maxH : ℚ)
    (obs : Observation) (cell : ℤ × ℤ) (st : CycleState)
    (h : st.costmap cell = LETHAL_OBSTACLE) :
    (markObservation g maxH obs st).costmap cell = LETHAL_OBSTACLE := by
  unfold markObservation
  exact foldl_invariant _ (fun s => s.costmap cell = LETHAL_OBSTACLE)
    (fun s p hs => markPoint_lethal_stable g maxH _ _ p cell s hs)
    obs.cloud st h

lemma markObservation_sets (g : GridInfo) (maxH : ℚ) (obs : Observation)
    (p : Point3) (hp : p ∈ obs.cloud) (c : ℕ × ℕ) (hz : p.z ≤ maxH)
    (hd : sqDist3 p obs.origin < obs.obstacle_range * obs.obstacle_range)
    (hc : worldToMap g p.x p.y = some c) (st : CycleState) :
    (markObservation g maxH obs st).costmap ((c.1 : ℤ), (c.2 : ℤ)) =
      LETHAL_OBSTACLE := by
  unfold markObservation
  exact foldl_establish _
    (fun s => s.costmap ((c.1 : ℤ), (c.2 : ℤ)) = LETHAL_OBSTACLE)
    (fun s q hs => markPoint_lethal_stable g maxH _ _ q _ s hs) p
    (fun s => markPoint_sets g maxH _ _ p c hz hd hc s) obs.cloud st hp

lemma updateFootprint_costmap (cfg : Config) (fp : List (ℚ × ℚ))
    (st : CycleState) : (updateFootprint cfg fp st).costmap = st.costmap := by
  unfold updateFootprint
  split_ifs <;> rfl

/-- C3: the update cycle raytraces all clearing observations before it
marks any marking observation, so a cell hit by an accepted marking point
ends updateBounds as LETHAL_OBSTACLE no matter which clearing rays
crossed it in the same cycle. -/
theorem c3_mark_wins_over_clear (dist : ℚ → ℚ → ℚ) (g : GridInfo)
    (cfg : Config) (shift : (ℤ × ℤ → ℕ) → ℤ × ℤ → ℕ)
    (mbufs cbufs : List (List Observation × Bool))
    (smark sclear : List Observation) (seeds fp : List (ℚ × ℚ))
    (st : CycleState) (hen : cfg.enabled = true) (obs : Observation)
    (hobs : obs ∈ (getMarkingObservations mbufs smark).1) (p : Point3)
    (hp : p ∈ obs.cloud) (hz : p.z ≤ cfg.max_obstacle_height)
    (hd : sqDist3 p obs.origin < obs.obstacle_range * obs.obstacle_range)
    (c : ℕ × ℕ) (hc : worldToMap g p.x p.y = some c) :
    (updateBounds dist g cfg shift mbufs cbufs smark sclear seeds fp
        st).costmap ((c.1 : ℤ), (c.2 : ℤ)) = LETHAL_OBSTACLE := by
  unfold updateBounds
  rw [if_neg (by simp [hen])]
  rw [updateFootprint_costmap]
  unfold clearAndMark
  apply foldl_establish _
    (fun s => s.costmap ((c.1 : ℤ), (c.2 : ℤ)) = LETHAL_OBSTACLE)
    (fun s o hs => markObservation_lethal_stable g cfg.max_obstacle_height
      o _ s hs) obs
    (fun s => markObservation_sets g cfg.max_obstacle_height obs p hp c hz
      hd hc s)
    (getMarkingObservations mbufs smark).1 _ hobs

/-- Witness for c3_mark_wins_over_clear: on the worked grid, a clearing
ray from (5,5) through (8,5) and a marking point at (6,5) leave cell
(6,5) lethal at the end of updateBounds. -/
theorem c3_witness :
    ((⟨true, false, 2, 1, false⟩ : Config).enabled = true) ∧
    ((⟨⟨5, 5, 0⟩, [⟨6, 5, 0⟩], 5/2, 3⟩ : Observation) ∈
      (getMarkingObservations [([⟨⟨5, 5, 0⟩, [⟨6, 5, 0⟩], 5/2, 3⟩], true)]
        []).1) ∧
    ((⟨6, 5, 0⟩ : Point3) ∈
      (⟨⟨5, 5, 0⟩, [⟨6, 5, 0⟩], 5/2, 3⟩ : Observation).cloud) ∧
    (updateBounds distAxis grid10 ⟨true, false, 2, 1, false⟩ (fun m => m)
        [([⟨⟨5, 5, 0⟩, [⟨6, 5, 0⟩], 5/2, 3⟩], true)]
        [([⟨⟨5, 5, 0⟩, [⟨8, 5, 0⟩], 5/2, 3⟩], true)] [] [] [] []
        stateAt5).costmap (6, 5) = LETHAL_OBSTACLE := by
  have hmem : (⟨⟨5, 5, 0⟩, [⟨6, 5, 0⟩], 5/2, 3⟩ : Observation) ∈
      (getMarkingObservations [([⟨⟨5, 5, 0⟩, [⟨6, 5, 0⟩], 5/2, 3⟩], true)]
        []).1 := by
    simp [getMarkingObservations, collectObservations]
  have h := c3_mark_wins_over_clear distAxis grid10
    ⟨true, false, 2, 1, false⟩ (fun m => m)
    [([⟨⟨5, 5, 0⟩, [⟨6, 5, 0⟩], 5/2, 3⟩], true)]
    [([⟨⟨5, 5, 0⟩, [⟨8, 5, 0⟩], 5/2, 3⟩], true)] [] [] [] [] stateAt5
    rfl ⟨⟨5, 5, 0⟩, [⟨6, 5, 0⟩], 5/2, 3⟩ hmem ⟨6, 5, 0⟩
    (by simp) (by norm_num) (by norm_num [sqDist3]) (6, 5)
    (by norm_num [worldToMap, grid10]; decide)
  exact ⟨rfl, hmem, by simp, h⟩

/-! ## Claim C9 -/

lemma boundsLE_refl (b : Bounds) : boundsLE b b :=
  ⟨le_refl _, le_refl _, le_refl _, le_refl _⟩

lemma boundsLE_trans {a b c : Bounds} (h1 : boundsLE a b) (h2 : boundsLE b c) :
    boundsLE a c :=
  ⟨le_trans h2.1 h1.1, le_trans h2.2.1 h1.2.1,
    le_trans h1.2.2.1 h2.2.2.1, le_trans h1.2.2.2 h2.2.2.2⟩

lemma touch_boundsLE (x y : ℚ) (b : Bounds) : boundsLE b (touch x y b) :=
  ⟨min_le_right x b.min_x, min_le_right y b.min_y,
    le_max_right x b.max_x, le_max_right y b.max_y⟩

lemma stGrew_refl (s : CycleState) : stGrew s s := boundsLE_refl _

lemma stGrew_trans (x y z : CycleState) (h1 : stGrew x y) (h2 : stGrew y z) :
    stGrew x z := boundsLE_trans h1 h2

lemma updateRaytraceBounds_boundsLE (dist : ℚ → ℚ → ℚ)
    (ox oy wx wy range : ℚ) (b : Bounds) :
    boundsLE b (updateRaytraceBounds dist ox oy wx wy range b) :=
  touch_boundsLE _ _ b

lemma rayStep_grew (dist : ℚ → ℚ → ℚ) (g : GridInfo) (ox oy : ℚ)
    (x0 y0 : ℕ) (range : ℚ) (st : CycleState) (p : Point3) :
    stGrew st (rayStep dist g ox oy x0 y0 range st p) := by
  rcases hclip : clipRay g.origin_x g.origin_y (mapEndX g) (mapEndY g)
      ox oy p.x p.y with _ | w
  · simp [rayStep, hclip]
    exact stGrew_refl st
  · rcases hconv : worldToMap g w.1 w.2 with _ | c
    · simp [rayStep, hclip, hconv]
      exact stGrew_refl st
    · simp only [rayStep, hclip, hconv]
      exact updateRaytraceBounds_boundsLE dist ox oy w.1 w.2 range st.bounds

lemma raytraceFreespace_grew (dist : ℚ → ℚ → ℚ) (g : GridInfo)
    (obs : Observation) (st : CycleState) :
    stGrew st (raytraceFreespace dist g obs st) := by
  rcases hw : worldToMap g obs.origin.x obs.origin.y with _ | c0
  · simp [raytraceFreespace, hw]
    exact stGrew_refl st
  · simp only [raytraceFreespace, hw]
    refine stGrew_trans st
      { st with bounds := touch obs.origin.x obs.origin.y st.bounds } _
      (touch_boundsLE obs.origin.x obs.origin.y st.bounds) ?_
    exact foldl_rel stGrew
      (fun s p => rayStep dist g obs.origin.x obs.origin.y c0.1 c0.2
        obs.raytrace_range s p) stGrew_trans stGrew_refl
      (fun s p => rayStep_grew dist g obs.origin.x obs.origin.y c0.1 c0.2
        obs.raytrace_range s p) obs.cloud _

lemma markPoint_grew (g : GridInfo) (maxH sqR : ℚ) (origin p : Point3)
    (st : CycleState) : stGrew st (markPoint g maxH sqR origin p st) := by
  unfold markPoint
  split_ifs
  · exact stGrew_refl st
  · exact stGrew_refl st
  · rcases hw : worldToMap g p.x p.y with _ | c
    · simp [hw]
      exact stGrew_refl st
    · simp [hw]
      exact touch_boundsLE p.x p.y st.bounds

lemma markObservation_grew (g : GridInfo) (maxH : ℚ) (obs : Observation)
    (st : CycleState) : stGrew st (markObservation g maxH obs st) :=
  foldl_rel stGrew
    (fun s p => markPoint g maxH (obs.obstacle_range * obs.obstacle_range)
      obs.origin p s) stGrew_trans stGrew_refl
    (fun s p => markPoint_grew g maxH _ obs.origin p s) obs.cloud st

lemma touchFold_boundsLE (pts : List (ℚ × ℚ)) (b : Bounds) :
    boundsLE b (pts.foldl (fun b0 v => touch v.1 v.2 b0) b) :=
  @foldl_rel (ℚ × ℚ) Bounds boundsLE (fun b0 v => touch v.1 v.2 b0)
    (fun _ _ _ h1 h2 => boundsLE_trans h1 h2) boundsLE_refl
    (fun b0 v => touch_boundsLE v.1 v.2 b0) pts b

lemma useExtraBounds_grew (seeds : List (ℚ × ℚ)) (st : CycleState) :
    stGrew st (useExtraBounds seeds st) := touchFold_boundsLE seeds st.bounds

lemma updateFootprint_grew (cfg : Config) (fp : List (ℚ × ℚ))
    (st : CycleState) : stGrew st (updateFootprint cfg fp st) := by
  unfold updateFootprint
  split_ifs
  · exact touchFold_boundsLE fp st.bounds
  · exact stGrew_refl st

lemma clearAndMark_grew (dist : ℚ → ℚ → ℚ) (g : GridInfo) (maxH : ℚ)
    (cobs mobs : List Observation) (st : CycleState) :
    stGrew st (clearAndMark dist g maxH cobs mobs st) := by
  show stGrew st (mobs.foldl (fun s o => markObservation g maxH o s)
    (cobs.foldl (fun s o => raytraceFreespace dist g o s) st))
  refine stGrew_trans st
    (cobs.foldl (fun s o => raytraceFreespace dist g o s) st) _ ?_ ?_
  · exact foldl_rel stGrew (fun s o => raytraceFreespace dist g o s)
      stGrew_trans stGrew_refl
      (fun s o => raytraceFreespace_grew dist g o s) cobs st
  · exact foldl_rel stGrew (fun s o => markObservation g maxH o s)
      stGrew_trans stGrew_refl
      (fun s o => markObservation_grew g maxH o s) mobs _

/-- C9: the bounding rectangle is only ever expanded within one cycle:
each single touch yields a rectangle containing the old one, and the
whole of updateBounds (seed bounds, raytracing, marking, footprint, with
or without the rolling shift and the enabled flag) yields a rectangle
containing the input rectangle — no operation of the cycle shrinks it. -/
theorem c9_bounds_monotone (dist : ℚ → ℚ → ℚ) (g : GridInfo) (cfg : Config)
    (shift : (ℤ × ℤ → ℕ) → ℤ × ℤ → ℕ)
    (mbufs cbufs : List (List Observation × Bool))
    (smark sclear : List Observation) (seeds fp : List (ℚ × ℚ))
    (st : CycleState) :
    (∀ (x y : ℚ) (b : Bounds), boundsLE b (touch x y b)) ∧
    boundsLE st.bounds
      (updateBounds dist g cfg shift mbufs cbufs smark sclear seeds fp
        st).bounds := by
  refine ⟨touch_boundsLE, ?_⟩
  unfold updateBounds
  by_cases he : cfg.enabled = false
  · rw [if_pos he]
    by_cases hr : cfg.rolling_window <;> simp [hr] <;> exact boundsLE_refl _
  · rw [if_neg he]
    have h0 : boundsLE st.bounds
        (if cfg.rolling_window then { st with costmap := shift st.costmap }
          else st).bounds := by
      by_cases hr : cfg.rolling_window <;> simp [hr] <;>
        exact boundsLE_refl _
    refine boundsLE_trans h0 ?_
    refine boundsLE_trans (useExtraBounds_grew seeds _) ?_
    have h2 := clearAndMark_grew dist g cfg.max_obstacle_height
      (getClearingObservations cbufs sclear).1
      (getMarkingObservations mbufs smark).1
      { useExtraBounds seeds
          (if cfg.rolling_window then { st with costmap := shift st.costmap }
            else st) with
        current := (getMarkingObservations mbufs smark).2 &&
          (getClearingObservations cbufs sclear).2 }
    refine boundsLE_trans (a := (useExtraBounds seeds _).bounds) h2 ?_
    exact updateFootprint_grew cfg fp _

/-! ## Claim C6 -/

lemma bresAux_length (adMajor adMinor : ℕ) (sMajor sMinor : ℤ) :
    ∀ (n : ℕ) (err : ℤ) (p : ℤ × ℤ),
      (bresAux adMajor adMinor sMajor sMinor n err p).length = n + 1 := by
  intro n
  induction n with
  | zero => intro err p; rfl
  | succ k ih =>
    intro err p
    simp only [bresAux, List.length_cons]
    split
    · rw [ih]
    · rw [ih]

lemma raytraceCells_length_le (x0 y0 x1 y1 cap : ℕ) :
    (raytraceCells x0 y0 x1 y1 cap).length ≤ cap + 1 := by
  simp only [raytraceCells]
  split
  · rw [bresAux_length]
    omega
  · rw [List.length_map, bresAux_length]
    omega

lemma mem_get?_le_of_length {α : Type} {l : List α} {c : α} {cap : ℕ}
    (h : c ∈ l) (hlen : l.length ≤ cap + 1) :
    ∃ k, k ≤ cap ∧ l.get? k = some c := by
  obtain ⟨n, hn⟩ := List.mem_iff_get?.mp h
  have hlt : n < l.length := by
    by_contra hge
    rw [List.get?_eq_none.mpr (le_of_not_lt hge)] at hn
    cases hn
  exact ⟨n, by omega, hn⟩

/-- C6: a clearing ray never changes a cell beyond
round(raytrace_range / resolution) cells from the origin cell along the
traced line: every cell whose value changes is set to FREE_SPACE and
occurs at an index at most cellDistance(range, resolution) in the traced
line, where cellDistance is exactly range / resolution rounded. -/
theorem c6_raytrace_cell_cap (dist : ℚ → ℚ → ℚ) (g : GridInfo) (ox oy : ℚ)
    (x0 y0 : ℕ) (range : ℚ) (st : CycleState) (p : Point3) (c : ℤ × ℤ)
    (hch : (rayStep dist g ox oy x0 y0 range st p).costmap c ≠
      st.costmap c) :
    (rayStep dist g ox oy x0 y0 range st p).costmap c = FREE_SPACE ∧
    cellDistance range g.resolution =
      (round (range / g.resolution)).toNat ∧
    ∃ e : ℚ × ℚ, ∃ c1 : ℕ × ℕ,
      clipRay g.origin_x g.origin_y (mapEndX g) (mapEndY g) ox oy p.x p.y =
        some e ∧
      worldToMap g e.1 e.2 = some c1 ∧
      ∃ k, k ≤ cellDistance range g.resolution ∧
        (raytraceCells x0 y0 c1.1 c1.2
          (cellDistance range g.resolution)).get? k = some c := by
  rcases hclip : clipRay g.origin_x g.origin_y (mapEndX g) (mapEndY g)
      ox oy p.x p.y with _ | e
  · exfalso
    apply hch
    simp [rayStep, hclip]
  · rcases hconv : worldToMap g e.1 e.2 with _ | c1
    · exfalso
      apply hch
      simp [rayStep, hclip, hconv]
    · by_cases hmem : c ∈ raytraceCells x0 y0 c1.1 c1.2
          (cellDistance range g.resolution)
      · refine ⟨?_, rfl, e, c1, rfl, hconv, ?_⟩
        · simp only [rayStep, hclip, hconv]
          exact foldl_update_of_mem FREE_SPACE _ st.costmap c hmem
        · exact mem_get?_le_of_length hmem
            (raytraceCells_length_le x0 y0 c1.1 c1.2 _)
      · exfalso
        apply hch
        simp only [rayStep, hclip, hconv]
        exact foldl_update_of_not_mem FREE_SPACE _ st.costmap c hmem

/-- Witness for c6_raytrace_cell_cap: on the worked grid, the clearing
ray from (5,5) to the interior hit point (8,5) with raytrace_range 3
changes cell (6,5), and that cell is within 3 = round(3/1) cells of the
origin along the traced line. -/
theorem c6_witness :
    ((rayStep distAxis grid10 5 5 5 5 3 stateAt5 ⟨8, 5, 0⟩).costmap (6, 5) ≠
      stateAt5.costmap (6, 5)) ∧
    (rayStep distAxis grid10 5 5 5 5 3 stateAt5 ⟨8, 5, 0⟩).costmap (6, 5) =
      FREE_SPACE ∧
    cellDistance 3 grid10.resolution =
      (round ((3 : ℚ) / grid10.resolution)).toNat ∧
    cellDistance 3 grid10.resolution = 3 := by
  have hclip : clipRay grid10.origin_x grid10.origin_y (mapEndX grid10)
      (mapEndY grid10) 5 5 (8 : ℚ) (5 : ℚ) = some (8, 5) := by
    norm_num [clipRay, clampLowX, clampLowY, clampHighX, clampHighY,
      grid10, mapEndX, mapEndY]
  have hconv : worldToMap grid10 (8 : ℚ) (5 : ℚ) = some (8, 5) := by
    norm_num [worldToMap, grid10]
    decide
  have hcap : cellDistance 3 grid10.resolution = 3 := by
    norm_num [cellDistance, grid10, round_eq]
    decide
  have hch : (rayStep distAxis grid10 5 5 5 5 3 stateAt5
      ⟨8, 5, 0⟩).costmap (6, 5) ≠ stateAt5.costmap (6, 5) := by
    have hval : (rayStep distAxis grid10 5 5 5 5 3 stateAt5
        ⟨8, 5, 0⟩).costmap (6, 5) = FREE_SPACE := by
      simp only [rayStep, hclip, hconv]
      apply foldl_update_of_mem
      rw [hcap]
      decide
    rw [hval]
    decide
  have h := c6_raytrace_cell_cap distAxis grid10 5 5 5 5 3 stateAt5
    ⟨8, 5, 0⟩ (6, 5) hch
  exact ⟨hch, h.1, h.2.1, hcap⟩

/-! ## Claim C2 -/

/-- C2 (amended): the per-ray bounds update touches the endpoint obtained
by scaling the ray from the origin to the CLIPPED endpoint (wx, wy) — not
the original unclipped hit point: with d the true Euclidean distance from
the origin to the clipped endpoint, the touched endpoint equals the
clipped endpoint when d ≤ raytrace_range, and otherwise lies on the
segment towards it at distance exactly raytrace_range.  (The unamended
claim — that the original unclipped hit point is scaled — is refuted by
c2_counterexample.) -/
theorem c2_bounds_scale_clipped_ray (dist : ℚ → ℚ → ℚ) (g : GridInfo)
    (ox oy : ℚ) (x0 y0 : ℕ) (range : ℚ) (st : CycleState) (p : Point3)
    (w : ℚ × ℚ) (c1 : ℕ × ℕ) (d : ℚ)
    (hclip : clipRay g.origin_x g.origin_y (mapEndX g) (mapEndY g) ox oy
      p.x p.y = some w)
    (hconv : worldToMap g w.1 w.2 = some c1)
    (hdist : dist (w.1 - ox) (w.2 - oy) = d)
    (hd0 : 0 ≤ d)
    (hsq : d * d = (w.1 - ox) * (w.1 - ox) + (w.2 - oy) * (w.2 - oy))
    (hr : 0 < range) :
    ∃ e : ℚ × ℚ,
      (rayStep dist g ox oy x0 y0 range st p).bounds =
        touch e.1 e.2 st.bounds ∧
      (d ≤ range → e = w) ∧
      (range < d →
        (e.1 - ox) * (e.1 - ox) + (e.2 - oy) * (e.2 - oy) = range * range ∧
        ∃ s, 0 ≤ s ∧ s ≤ 1 ∧
          e.1 = ox + (w.1 - ox) * s ∧ e.2 = oy + (w.2 - oy) * s) := by
  refine ⟨(ox + (w.1 - ox) * min 1 (range / d),
    oy + (w.2 - oy) * min 1 (range / d)), ?_, ?_, ?_⟩
  · simp only [rayStep, hclip, hconv, updateRaytraceBounds]
    rw [hdist]
  · intro hle
    rcases eq_or_lt_of_le hd0 with h0 | h0
    · have hzz : (w.1 - ox) * (w.1 - ox) + (w.2 - oy) * (w.2 - oy) = 0 := by
        rw [← hsq, ← h0]
        ring
      have h1 : w.1 - ox = 0 := by nlinarith
      have h2 : w.2 - oy = 0 := by nlinarith
      refine Prod.ext_iff.mpr ⟨?_, ?_⟩
      · show ox + (w.1 - ox) * min 1 (range / d) = w.1
        rw [h1]
        linarith
      · show oy + (w.2 - oy) * min 1 (range / d) = w.2
        rw [h2]
        linarith
    · have hmin : min 1 (range / d) = 1 :=
        min_eq_left ((one_le_div h0).mpr hle)
      refine Prod.ext_iff.mpr ⟨?_, ?_⟩
      · show ox + (w.1 - ox) * min 1 (range / d) = w.1
        rw [hmin]
        ring
      · show oy + (w.2 - oy) * min 1 (range / d) = w.2
        rw [hmin]
        ring
  · intro hlt
    have hd' : 0 < d := lt_trans hr hlt
    have hne : d ≠ 0 := ne_of_gt hd'
    have hmin : min 1 (range / d) = range / d :=
      min_eq_right ((div_le_one hd').mpr hlt.le)
    constructor
    · have key : range / d * (range / d) * (d * d) = range * range := by
        field_simp
      calc (ox + (w.1 - ox) * min 1 (range / d) - ox) *
            (ox + (w.1 - ox) * min 1 (range / d) - ox) +
            (oy + (w.2 - oy) * min 1 (range / d) - oy) *
            (oy + (w.2 - oy) * min 1 (range / d) - oy)
          = ((w.1 - ox) * (w.1 - ox) + (w.2 - oy) * (w.2 - oy)) *
            (min 1 (range / d) * min 1 (range / d)) := by ring
        _ = range / d * (range / d) * (d * d) := by
            rw [← hsq, hmin]
            ring
        _ = range * range := key
    · exact ⟨range / d, div_nonneg hr.le hd'.le,
        (div_le_one hd').mpr hlt.le, by rw [hmin], by rw [hmin]⟩

/-- Counterexample to C2 as stated: on the worked grid with origin (5,5),
hit point (15,5) and raytrace_range 10, the spec's endpoint — the
original unclipped ray scaled by its true distance 10 ≤ 10 — is (15,5)
itself, and touching it would make max_x ≥ 15; but the code scales the
CLIPPED endpoint (9.999, 5) (distance 4.999), so the rasterizing step
leaves max_x = 9.999 < 15: the unclipped endpoint is not touched. -/
theorem c2_counterexample :
    specRaytraceTouchPoint 10 5 5 15 5 10 = (15, 5) ∧
    (10 : ℚ) * 10 = ((15 : ℚ) - 5) * (15 - 5) + ((5 : ℚ) - 5) * (5 - 5) ∧
    distAxis ((9999 : ℚ)/1000 - 5) ((5 : ℚ) - 5) = 4999/1000 ∧
    ((4999 : ℚ)/1000) * (4999/1000) =
      ((9999 : ℚ)/1000 - 5) * (9999/1000 - 5) + ((5 : ℚ) - 5) * (5 - 5) ∧
    (rayStep distAxis grid10 5 5 5 5 10 stateAt5 ⟨15, 5, 0⟩).bounds.max_x =
      9999/1000 ∧
    (touch 15 5 stateAt5.bounds).max_x = 15 ∧
    ((9999 : ℚ)/1000) < 15 := by
  have hclip : clipRay grid10.origin_x grid10.origin_y (mapEndX grid10)
      (mapEndY grid10) 5 5 (15 : ℚ) (5 : ℚ) = some (9999/1000, 5) := by
    norm_num [clipRay, clampLowX, clampLowY, clampHighX, clampHighY,
      grid10, mapEndX, mapEndY]
  have hconv : worldToMap grid10 ((9999 : ℚ)/1000) (5 : ℚ) =
      some (9, 5) := by
    norm_num [worldToMap, grid10]
    decide
  refine ⟨?_, by norm_num, by norm_num [distAxis], by norm_num, ?_, ?_,
    by norm_num⟩
  · norm_num [specRaytraceTouchPoint, min_def]
  · simp only [rayStep, hclip, hconv, updateRaytraceBounds]
    norm_num [distAxis, touch, stateAt5, abs_of_nonneg, min_def, max_def]
  · norm_num [touch, stateAt5, max_def]

/-- Witness for c2_bounds_scale_clipped_ray at the counterexample's
numbers: the bounds update touches exactly the clipped endpoint
(9.999, 5), whose distance 4.999 is within raytrace_range 10. -/
theorem c2_witness :
    (clipRay grid10.origin_x grid10.origin_y (mapEndX grid10)
        (mapEndY grid10) 5 5 ((⟨15, 5, 0⟩ : Point3)).x
        ((⟨15, 5, 0⟩ : Point3)).y = some (9999/1000, 5) ∧
      worldToMap grid10 (((9999 : ℚ)/1000, (5 : ℚ)) : ℚ × ℚ).1
        (((9999 : ℚ)/1000, (5 : ℚ)) : ℚ × ℚ).2 = some (9, 5) ∧
      distAxis ((((9999 : ℚ)/1000, (5 : ℚ)) : ℚ × ℚ).1 - 5)
        ((((9999 : ℚ)/1000, (5 : ℚ)) : ℚ × ℚ).2 - 5) = 4999/1000 ∧
      (0 : ℚ) ≤ 4999/1000 ∧ (0 : ℚ) < 10) ∧
    (∃ e : ℚ × ℚ,
      (rayStep distAxis grid10 5 5 5 5 10 stateAt5 ⟨15, 5, 0⟩).bounds =
        touch e.1 e.2 stateAt5.bounds ∧
      ((4999 : ℚ)/1000 ≤ 10 → e = (((9999 : ℚ)/1000, (5 : ℚ)) : ℚ × ℚ)) ∧
      ((10 : ℚ) < 4999/1000 →
        (e.1 - 5) * (e.1 - 5) + (e.2 - 5) * (e.2 - 5) = 10 * 10 ∧
        ∃ s, 0 ≤ s ∧ s ≤ 1 ∧
          e.1 = 5 + ((((9999 : ℚ)/1000, (5 : ℚ)) : ℚ × ℚ).1 - 5) * s ∧
          e.2 = 5 + ((((9999 : ℚ)/1000, (5 : ℚ)) : ℚ × ℚ).2 - 5) * s)) := by
  have hclip : clipRay grid10.origin_x grid10.origin_y (mapEndX grid10)
      (mapEndY grid10) 5 5 ((⟨15, 5, 0⟩ : Point3)).x
      ((⟨15, 5, 0⟩ : Point3)).y = some (9999/1000, 5) := by
    norm_num [clipRay, clampLowX, clampLowY, clampHighX, clampHighY,
      grid10, mapEndX, mapEndY]
  have hconv : worldToMap grid10 (((9999 : ℚ)/1000, (5 : ℚ)) : ℚ × ℚ).1
      (((9999 : ℚ)/1000, (5 : ℚ)) : ℚ × ℚ).2 = some (9, 5) := by
    norm_num [worldToMap, grid10]
    decide
  have hdist : distAxis ((((9999 : ℚ)/1000, (5 : ℚ)) : ℚ × ℚ).1 - 5)
      ((((9999 : ℚ)/1000, (5 : ℚ)) : ℚ × ℚ).2 - 5) = 4999/1000 := by
    norm_num [distAxis]
  exact ⟨⟨hclip, hconv, hdist, by norm_num, by norm_num⟩,
    c2_bounds_scale_clipped_ray distAxis grid10 5 5 5 5 10 stateAt5
      ⟨15, 5, 0⟩ (9999/1000, 5) (9, 5) (4999/1000) hclip hconv hdist
      (by norm_num) (by norm_num) (by norm_num)⟩

/-! ## Claim C7 -/

lemma collect_fold_snd (bufs : List (List Observation × Bool)) :
    ∀ (init : List Observation) (cur : Bool),
      (bufs.foldl (fun acc bf => (acc.1 ++ bf.1, bf.2 && acc.2))
        (init, cur)).2 = ((bufs.all fun b => b.2) && cur) := by
  induction bufs with
  | nil => intro init cur; simp
  | cons b l ih =>
    intro init cur
    rw [List.foldl_cons, ih]
    cases hb : b.2 <;> cases hc : cur <;> simp [List.all_cons, hb, hc]

lemma collect_fold_fst (bufs : List (List Observation × Bool)) :
    ∀ (init : List Observation) (cur : Bool),
      (bufs.foldl (fun acc bf => (acc.1 ++ bf.1, bf.2 && acc.2))
        (init, cur)).1 = init ++ (bufs.map fun b => b.1).flatten := by
  induction bufs with
  | nil => intro init cur; simp
  | cons b l ih =>
    intro init cur
    rw [List.foldl_cons, ih]
    simp [List.append_assoc]

lemma rayStep_congr (dist : ℚ → ℚ → ℚ) (g : GridInfo) (ox oy : ℚ)
    (x0 y0 : ℕ) (range : ℚ) (p : Point3) (s s' : CycleState)
    (h : sameGrid s s') :
    sameGrid (rayStep dist g ox oy x0 y0 range s p)
      (rayStep dist g ox oy x0 y0 range s' p) := by
  obtain ⟨h1, h2⟩ := h
  rcases hclip : clipRay g.origin_x g.origin_y (mapEndX g) (mapEndY g)
      ox oy p.x p.y with _ | w
  · simp only [rayStep, hclip]
    exact ⟨h1, h2⟩
  · rcases hconv : worldToMap g w.1 w.2 with _ | c
    · simp only [rayStep, hclip, hconv]
      exact ⟨h1, h2⟩
    · simp only [rayStep, hclip, hconv]
      exact ⟨by rw [h1], by rw [h2]⟩

lemma rayStep_current (dist : ℚ → ℚ → ℚ) (g : GridInfo) (ox oy : ℚ)
    (x0 y0 : ℕ) (range : ℚ) (s : CycleState) (p : Point3) :
    (rayStep dist g ox oy x0 y0 range s p).current = s.current := by
  rcases hclip : clipRay g.origin_x g.origin_y (mapEndX g) (mapEndY g)
      ox oy p.x p.y with _ | w
  · simp only [rayStep, hclip]
  · rcases hconv : worldToMap g w.1 w.2 with _ | c
    · simp only [rayStep, hclip, hconv]
    · simp only [rayStep, hclip, hconv]

lemma raytraceFreespace_congr (dist : ℚ → ℚ → ℚ) (g : GridInfo)
    (obs : Observation) (s s' : CycleState) (h : sameGrid s s') :
    sameGrid (raytraceFreespace dist g obs s)
      (raytraceFreespace dist g obs s') := by
  obtain ⟨h1, h2⟩ := h
  rcases hw : worldToMap g obs.origin.x obs.origin.y with _ | c0
  · simp only [raytraceFreespace, hw]
    exact ⟨h1, h2⟩
  · simp only [raytraceFreespace, hw]
    exact @foldl_congr_rel Point3 CycleState sameGrid
      (fun s p => rayStep dist g obs.origin.x obs.origin.y c0.1 c0.2
        obs.raytrace_range s p)
      (fun a b p hab => rayStep_congr dist g obs.origin.x obs.origin.y
        c0.1 c0.2 obs.raytrace_range p a b hab) obs.cloud _ _
      ⟨h1, by rw [h2]⟩

lemma raytraceFreespace_current (dist : ℚ → ℚ → ℚ) (g : GridInfo)
    (obs : Observation) (s : CycleState) :
    (raytraceFreespace dist g obs s).current = s.current := by
  rcases hw : worldToMap g obs.origin.x obs.origin.y with _ | c0
  · simp only [raytraceFreespace, hw]
  · simp only [raytraceFreespace, hw]
    exact foldl_invariant
      (fun s2 p => rayStep dist g obs.origin.x obs.origin.y c0.1 c0.2
        obs.raytrace_range s2 p)
      (fun x => x.current = s.current)
      (fun x p hx => by
        show (rayStep dist g obs.origin.x obs.origin.y c0.1 c0.2
          obs.raytrace_range x p).current = s.current
        rw [rayStep_current dist g obs.origin.x obs.origin.y c0.1 c0.2
          obs.raytrace_range x p]
        exact hx) obs.cloud _ rfl

lemma markPoint_congr (g : GridInfo) (maxH sqR : ℚ) (origin p : Point3)
    (s s' : CycleState) (h : sameGrid s s') :
    sameGrid (markPoint g maxH sqR origin p s)
      (markPoint g maxH sqR origin p s') := by
  obtain ⟨h1, h2⟩ := h
  unfold markPoint
  split_ifs
  · exact ⟨h1, h2⟩
  · exact ⟨h1, h2⟩
  · rcases hw : worldToMap g p.x p.y with _ | c
    · simp only []
      exact ⟨h1, h2⟩
    · simp only []
      exact ⟨by rw [h1], by rw [h2]⟩

lemma markPoint_current (g : GridInfo) (maxH sqR : ℚ) (origin p : Point3)
    (s : CycleState) :
    (markPoint g maxH sqR origin p s).current = s.current := by
  unfold markPoint
  split_ifs
  · rfl
  · rfl
  · rcases hw : worldToMap g p.x p.y with _ | c <;> simp only []

lemma markObservation_congr (g : GridInfo) (maxH : ℚ) (obs : Observation)
    (s s' : CycleState) (h : sameGrid s s') :
    sameGrid (markObservation g maxH obs s) (markObservation g maxH obs s') :=
  @foldl_congr_rel Point3 CycleState sameGrid
    (fun s2 p => markPoint g maxH (obs.obstacle_range * obs.obstacle_range)
      obs.origin p s2)
    (fun a b p hab => markPoint_congr g maxH _ obs.origin p a b hab)
    obs.cloud s s' h

lemma markObservation_current (g : GridInfo) (maxH : ℚ) (obs : Observation)
    (s : CycleState) :
    (markObservation g maxH obs s).current = s.current :=
  foldl_invariant
    (fun s2 p => markPoint g maxH (obs.obstacle_range * obs.obstacle_range)
      obs.origin p s2)
    (fun x => x.current = s.current)
    (fun x p hx => by
      show (markPoint g maxH (obs.obstacle_range * obs.obstacle_range)
        obs.origin p x).current = s.current
      rw [markPoint_current]
      exact hx) obs.cloud s rfl

lemma clearAndMark_congr (dist : ℚ → ℚ → ℚ) (g : GridInfo) (maxH : ℚ)
    (cobs mobs : List Observation) (s s' : CycleState) (h : sameGrid s s') :
    sameGrid (clearAndMark dist g maxH cobs mobs s)
      (clearAndMark dist g maxH cobs mobs s') := by
  show sameGrid
    (mobs.foldl (fun s2 o => markObservation g maxH o s2)
      (cobs.foldl (fun s2 o => raytraceFreespace dist g o s2) s))
    (mobs.foldl (fun s2 o => markObservation g maxH o s2)
      (cobs.foldl (fun s2 o => raytraceFreespace dist g o s2) s'))
  refine @foldl_congr_rel Observation CycleState sameGrid
    (fun s2 o => markObservation g maxH o s2)
    (fun a b o hab => markObservation_congr g maxH o a b hab) mobs _ _ ?_
  exact @foldl_congr_rel Observation CycleState sameGrid
    (fun s2 o => raytraceFreespace dist g o s2)
    (fun a b o hab => raytraceFreespace_congr dist g o a b hab) cobs _ _ h

lemma clearAndMark_current (dist : ℚ → ℚ → ℚ) (g : GridInfo) (maxH : ℚ)
    (cobs mobs : List Observation) (s : CycleState) :
    (clearAndMark dist g maxH cobs mobs s).current = s.current := by
  show (mobs.foldl (fun s2 o => markObservation g maxH o s2)
    (cobs.foldl (fun s2 o => raytraceFreespace dist g o s2) s)).current =
    s.current
  have h1 : (cobs.foldl (fun s2 o => raytraceFreespace dist g o s2)
      s).current = s.current :=
    foldl_invariant (fun s2 o => raytraceFreespace dist g o s2)
      (fun x => x.current = s.current)
      (fun x o hx => by
        show (raytraceFreespace dist g o x).current = s.current
        rw [raytraceFreespace_current]
        exact hx) cobs s rfl
  exact foldl_invariant (fun s2 o => markObservation g maxH o s2)
    (fun x => x.current = s.current)
    (fun x o hx => by
      show (markObservation g maxH o x).current = s.current
      rw [markObservation_current]
      exact hx) mobs _ h1

lemma updateFootprint_congr (cfg : Config) (fp : List (ℚ × ℚ))
    (s s' : CycleState) (h : sameGrid s s') :
    sameGrid (updateFootprint cfg fp s) (updateFootprint cfg fp s') := by
  obtain ⟨h1, h2⟩ := h
  unfold updateFootprint
  split_ifs
  · exact ⟨h1, by rw [h2]⟩
  · exact ⟨h1, h2⟩

lemma updateFootprint_current (cfg : Config) (fp : List (ℚ × ℚ))
    (s : CycleState) : (updateFootprint cfg fp s).current = s.current := by
  unfold updateFootprint
  split_ifs <;> rfl

lemma updateBounds_enabled (dist : ℚ → ℚ → ℚ) (g : GridInfo) (cfg : Config)
    (shift : (ℤ × ℤ → ℕ) → ℤ × ℤ → ℕ)
    (mbufs cbufs : List (List Observation × Bool))
    (smark sclear : List Observation) (seeds fp : List (ℚ × ℚ))
    (st : CycleState) (hen : cfg.enabled = true) :
    updateBounds dist g cfg shift mbufs cbufs smark sclear seeds fp st =
      updateFootprint cfg fp (clearAndMark dist g cfg.max_obstacle_height
        (getClearingObservations cbufs sclear).1
        (getMarkingObservations mbufs smark).1
        { useExtraBounds seeds (if cfg.rolling_window then
            { st with costmap := shift st.costmap } else st) with
          current := (getMarkingObservations mbufs smark).2 &&
            (getClearingObservations cbufs sclear).2 }) := by
  unfold updateBounds
  rw [if_neg (show ¬(cfg.enabled = false) from by simp [hen])]

/-- C7: the cycle's reported current state is the AND of the currentness
of every marking buffer and every clearing buffer (true for no buffers);
the statically injected observations are appended after the buffer
snapshots and never change the currentness; and staleness never aborts
the cycle — the resulting grid and bounds are the same as if every buffer
had been current. -/
theorem c7_current_aggregation (dist : ℚ → ℚ → ℚ) (g : GridInfo)
    (cfg : Config) (shift : (ℤ × ℤ → ℕ) → ℤ × ℤ → ℕ)
    (mbufs cbufs : List (List Observation × Bool))
    (smark sclear : List Observation) (seeds fp : List (ℚ × ℚ))
    (st : CycleState) (hen : cfg.enabled = true) :
    (getMarkingObservations mbufs smark).2 = (mbufs.all fun b => b.2) ∧
    (getClearingObservations cbufs sclear).2 = (cbufs.all fun b => b.2) ∧
    (getMarkingObservations mbufs smark).1 =
      (getMarkingObservations mbufs []).1 ++ smark ∧
    (getClearingObservations cbufs sclear).1 =
      (getClearingObservations cbufs []).1 ++ sclear ∧
    (updateBounds dist g cfg shift mbufs cbufs smark sclear seeds fp
        st).current =
      ((mbufs.all fun b => b.2) && (cbufs.all fun b => b.2)) ∧
    (updateBounds dist g cfg shift mbufs cbufs smark sclear seeds fp
        st).costmap =
      (updateBounds dist g cfg shift (mbufs.map fun b => (b.1, true))
        (cbufs.map fun b => (b.1, true)) smark sclear seeds fp st).costmap ∧
    (updateBounds dist g cfg shift mbufs cbufs smark sclear seeds fp
        st).bounds =
      (updateBounds dist g cfg shift (mbufs.map fun b => (b.1, true))
        (cbufs.map fun b => (b.1, true)) smark sclear seeds fp st).bounds := by
  have hsnd : ∀ (bufs : List (List Observation × Bool))
      (stat : List Observation),
      (collectObservations bufs stat).2 = (bufs.all fun b => b.2) := by
    intro bufs stat
    unfold collectObservations
    rw [collect_fold_snd]
    simp
  have hfst : ∀ (bufs : List (List Observation × Bool))
      (stat : List Observation),
      (collectObservations bufs stat).1 =
        (bufs.map fun b => b.1).flatten ++ stat := by
    intro bufs stat
    unfold collectObservations
    show (bufs.foldl (fun acc bf => (acc.1 ++ bf.1, bf.2 && acc.2))
      ([], true)).1 ++ stat = (bufs.map fun b => b.1).flatten ++ stat
    rw [collect_fold_fst]
    simp
  have hmapfst : ∀ (bufs : List (List Observation × Bool)),
      ((bufs.map fun b => (b.1, true)).map fun b => b.1) =
        bufs.map fun b => b.1 := by
    intro bufs
    rw [List.map_map]
    rfl
  have hobs : ∀ (bufs : List (List Observation × Bool))
      (stat : List Observation),
      (collectObservations (bufs.map fun b => (b.1, true)) stat).1 =
        (collectObservations bufs stat).1 := by
    intro bufs stat
    rw [hfst, hfst, hmapfst]
  refine ⟨hsnd mbufs smark, hsnd cbufs sclear, ?_, ?_, ?_, ?_⟩
  · show (collectObservations mbufs smark).1 =
      (collectObservations mbufs []).1 ++ smark
    rw [hfst, hfst]
    simp
  · show (collectObservations cbufs sclear).1 =
      (collectObservations cbufs []).1 ++ sclear
    rw [hfst, hfst]
    simp
  · rw [updateBounds_enabled dist g cfg shift mbufs cbufs smark sclear
      seeds fp st hen, updateFootprint_current, clearAndMark_current]
    show ((getMarkingObservations mbufs smark).2 &&
      (getClearingObservations cbufs sclear).2) = _
    unfold getMarkingObservations getClearingObservations
    rw [hsnd mbufs smark, hsnd cbufs sclear]
  · have hsg : sameGrid
        (updateBounds dist g cfg shift mbufs cbufs smark sclear seeds fp st)
        (updateBounds dist g cfg shift (mbufs.map fun b => (b.1, true))
          (cbufs.map fun b => (b.1, true)) smark sclear seeds fp st) := by
      rw [updateBounds_enabled dist g cfg shift mbufs cbufs smark sclear
        seeds fp st hen,
        updateBounds_enabled dist g cfg shift (mbufs.map fun b => (b.1, true))
          (cbufs.map fun b => (b.1, true)) smark sclear seeds fp st hen]
      have h1 := hobs mbufs smark
      have h2 := hobs cbufs sclear
      rw [show (getMarkingObservations (mbufs.map fun b => (b.1, true))
          smark).1 = (getMarkingObservations mbufs smark).1 from h1,
        show (getClearingObservations (cbufs.map fun b => (b.1, true))
          sclear).1 = (getClearingObservations cbufs sclear).1 from h2]
      exact updateFootprint_congr cfg fp _ _
        (clearAndMark_congr dist g cfg.max_obstacle_height _ _ _ _
          ⟨rfl, rfl⟩)
    exact ⟨hsg.1, hsg.2⟩

/-- Witness for c7_current_aggregation: two marking buffers, one stale
and one fresh, on the worked grid — the cycle reports not-current while
the grid results equal the all-current run. -/
theorem c7_witness :
    ((⟨true, false, 2, 1, false⟩ : Config).enabled = true) ∧
    (getMarkingObservations [([], false), ([], true)] []).2 =
      ([(([] : List Observation), false), ([], true)].all fun b => b.2) ∧
    (getMarkingObservations [([], false), ([], true)] []).2 = false ∧
    (updateBounds distAxis grid10 ⟨true, false, 2, 1, false⟩ (fun m => m)
        [([], false), ([], true)] [] [] [] [] [] stateAt5).current =
      (([(([] : List Observation), false), ([], true)].all fun b => b.2) &&
        (([] : List (List Observation × Bool)).all fun b => b.2)) := by
  have h := c7_current_aggregation distAxis grid10
    ⟨true, false, 2, 1, false⟩ (fun m => m) [([], false), ([], true)] []
    [] [] [] [] stateAt5 rfl
  exact ⟨rfl, h.1, by rw [h.1]; rfl, h.2.2.2.2.1⟩

end Nav2
